import Mathlib

/-!
Verification of the tabular normalization / aggregation / AI-context core.

Shallow embedding of the data pipeline of this repository:

* `app/pages/Dashboard_Cyber.py` — `_normalize_columns`, the normalization
  tail of `_load_data`, the filter block of `cyber_dashboard`, and the
  unresolved-incident count used by the KPIs and `_executive_summary`;
* `app/common/ai_tools.py` — `_mask_or_drop_pii_cols`, `_safe_sample_rows`,
  `_summarize_numeric`, `_top_value_counts`, `_convert_types_for_json`,
  `build_ai_context`;
* `app/common/rag.py` — `RAG.query`;
* `ai_core.py` / `app/common/ai_client.py` — error surfacing of the
  text-generation dependency.

Python scalars are modelled by the inductive `Cell` (strings, integers,
day-resolution timestamps and nulls); `pandas.DataFrame` by `DFrame`, a column
list together with rows stored as association lists whose keys mirror the
columns; JSON-bound Python values by `PyVal`.  Machine floats appear only as
opaque statistics values and are modelled by exact rationals (`PyVal.vFloat`)
plus an explicit NaN; none of the claims inspects their numeric content.
-/

/-! ## Python string primitives

`str.lower` (ASCII range, the range exercised by the data), `str.strip` and
single-character `str.replace`, modelled over the character list of a string.
-/

/-- ASCII lower-casing of one character, as `str.lower` acts on the
column names appearing in this code base. -/
def charLower (c : Char) : Char :=
  if 65 ≤ c.toNat ∧ c.toNat ≤ 90 then Char.ofNat (c.toNat + 32) else c

/-- `str.lower`. -/
def pyLower (s : String) : String := ⟨s.data.map charLower⟩

/-- Strip leading and trailing whitespace from a character list
(`str.strip`). -/
def stripChars (l : List Char) : List Char :=
  ((l.dropWhile Char.isWhitespace).reverse.dropWhile Char.isWhitespace).reverse

/-- `str.strip`. -/
def pyStrip (s : String) : String := ⟨stripChars s.data⟩

/-- One step of `str.replace(" ", "_")`. -/
def spaceToUnderscore (c : Char) : Char := if c = ' ' then '_' else c

/-- `s.replace(" ", "_")`. -/
def pyUnderscore (s : String) : String := ⟨s.data.map spaceToUnderscore⟩

/-- Is `needle` a contiguous infix of `hay`? -/
def infixOfB (needle : List Char) : List Char → Bool
  | [] => needle.isEmpty
  | c :: t => needle.isPrefixOf (c :: t) || infixOfB needle t

/-- Substring test, `sub in s` on Python strings. -/
def pyContains (s sub : String) : Bool := infixOfB sub.data s.data

/-! ## Dates

Timestamps are carried at day resolution (the dashboard floors them to days
anyway).  `daysFromCivil` is the standard civil-calendar day count used to give
parsed dates a concrete value. -/

/-- Days since 1970-01-01 of a Gregorian date (Hinnant's `days_from_civil`,
with truncating integer division exactly as in the reference algorithm). -/
def daysFromCivil (y m d : Int) : Int :=
  let y' := if m ≤ 2 then y - 1 else y
  let era := (if 0 ≤ y' then y' else y' - 399).tdiv 400
  let yoe := y' - era * 400
  let mp := (m + 9).emod 12
  let doy := (153 * mp + 2).tdiv 5 + d - 1
  let doe := yoe * 365 + yoe.tdiv 4 - yoe.tdiv 100 + doy
  era * 146097 + doe - 719468

/-- Is a character an ASCII digit? -/
def isDigitChar (c : Char) : Bool := 48 ≤ c.toNat ∧ c.toNat ≤ 57

/-- Numeric value of a digit list (most significant first). -/
def digitsToNat (l : List Char) : Nat :=
  l.foldl (fun acc c => acc * 10 + (c.toNat - 48)) 0

/-- Day count of a month (1-12) of a Gregorian year. -/
def daysInMonth (y m : Nat) : Nat :=
  if m = 2 then
    if y % 4 = 0 ∧ (y % 100 ≠ 0 ∨ y % 400 = 0) then 29 else 28
  else if m = 4 ∨ m = 6 ∨ m = 9 ∨ m = 11 then 30
  else 31

/-- Split a character list at every occurrence of a separator character. -/
def splitOnChar (sep : Char) : List Char → List (List Char)
  | [] => [[]]
  | c :: t =>
    let r := splitOnChar sep t
    if c = sep then [] :: r
    else
      match r with
      | h :: t' => (c :: h) :: t'
      | [] => [[c]]

/-- Tolerant timestamp parsing (`pd.to_datetime(..., errors="coerce")` on one
string).  The model accepts ISO `YYYY-MM-DD` dates — the format exercised by
the repository's data and the claims — and treats every other string as
unparseable, which `errors="coerce"` maps to null. -/
def parseDateStr (s : String) : Option Int :=
  match splitOnChar '-' s.data with
  | [ys, ms, ds] =>
    if ys ≠ [] ∧ ms ≠ [] ∧ ds ≠ [] ∧
        ys.all isDigitChar ∧ ms.all isDigitChar ∧ ds.all isDigitChar then
      let y := digitsToNat ys
      let m := digitsToNat ms
      let d := digitsToNat ds
      if 1 ≤ m ∧ m ≤ 12 ∧ 1 ≤ d ∧ d ≤ daysInMonth y m then
        some (daysFromCivil y m d)
      else none
    else none
  | _ => none

/-! ## Cells and data frames -/

/-- A Python scalar held in a table cell: null (`None`/`NaN`/`NaT`), a string,
an integer, or a parsed timestamp (days since epoch). -/
inductive Cell where
  | null
  | str (s : String)
  | int (n : Int)
  | date (d : Int)
deriving DecidableEq, Repr, Inhabited

/-- `astype(str)` on one cell.  Pandas renders missing values as `"nan"`. -/
def cellToStr : Cell → String
  | Cell.null => "nan"
  | Cell.str s => s
  | Cell.int n => toString n
  | Cell.date d => toString d

/-- Element action of `pd.to_datetime(..., errors="coerce")`: dates are kept,
parseable strings become dates, everything unparseable becomes null, and an
integer is interpreted as an epoch offset (day-resolution in this model). -/
def parseCell : Cell → Cell
  | Cell.null => Cell.null
  | Cell.str s =>
    match parseDateStr s with
    | some d => Cell.date d
    | none => Cell.null
  | Cell.int n => Cell.date n
  | Cell.date d => Cell.date d

/-- A row: the association list of column name to cell, mirroring one record
of a `DataFrame`.  Keys follow the column list of the owning frame. -/
abbrev Row := List (String × Cell)

/-- A `pandas.DataFrame`: ordered column names and rows. -/
structure DFrame where
  cols : List String
  rows : List Row
deriving DecidableEq, Repr

/-- Well-formedness of a frame, as pandas guarantees it: the keys of every
row are exactly the column list, in order. -/
abbrev DFrame.Wf (df : DFrame) : Prop := ∀ r ∈ df.rows, r.map Prod.fst = df.cols

/-- `c in df.columns`. -/
def DFrame.hasCol (df : DFrame) (c : String) : Bool := df.cols.any (· == c)

/-- `df.empty`: true when the frame has no rows or no columns. -/
def DFrame.isEmpty (df : DFrame) : Bool := df.rows.isEmpty || df.cols.isEmpty

/-- Fetch the cell of one column in a row; a missing entry reads as null. -/
def rowGet (r : Row) (k : String) : Cell := (r.lookup k).getD Cell.null

/-- Does a row carry an entry for a key? -/
def rowHasKey (r : Row) (k : String) : Bool := r.any (fun kv => kv.1 == k)

/-- Overwrite (every occurrence of) a key in a row, appending when absent. -/
def rowSet (r : Row) (k : String) (v : Cell) : Row :=
  if rowHasKey r k then r.map (fun kv => if kv.1 == k then (k, v) else kv)
  else r ++ [(k, v)]

/-- Apply a function to the value(s) stored under one key of a row. -/
def rowMapVal (k : String) (f : Cell → Cell) (r : Row) : Row :=
  r.map (fun kv => if kv.1 == k then (kv.1, f kv.2) else kv)

/-- Read one column (`df[c]`), missing entries as null. -/
def DFrame.getCol (df : DFrame) (k : String) : List Cell :=
  df.rows.map (rowGet · k)

/-- Column assignment `df[k] = scalar`. -/
def DFrame.setConst (df : DFrame) (k : String) (v : Cell) : DFrame :=
  ⟨if df.hasCol k then df.cols else df.cols ++ [k],
   df.rows.map (rowSet · k v)⟩

/-- Column assignment `df[k] = values` (one value per row). -/
def DFrame.setColVals (df : DFrame) (k : String) (vs : List Cell) : DFrame :=
  ⟨if df.hasCol k then df.cols else df.cols ++ [k],
   (df.rows.zip vs).map (fun rv => rowSet rv.1 k rv.2)⟩

/-- Transform one column in place (`df[k] = f(df[k])`). -/
def DFrame.mapCol (df : DFrame) (k : String) (f : Cell → Cell) : DFrame :=
  ⟨df.cols, df.rows.map (rowMapVal k f)⟩

/-- Rename every column (and correspondingly every row key). -/
def DFrame.renameAll (df : DFrame) (f : String → String) : DFrame :=
  ⟨df.cols.map f, df.rows.map (·.map (fun kv => (f kv.1, kv.2)))⟩

/-- `df.drop(columns=ks)`. -/
def DFrame.dropCols (df : DFrame) (ks : List String) : DFrame :=
  ⟨df.cols.filter (fun c => !(ks.any (· == c))),
   df.rows.map (·.filter (fun kv => !(ks.any (· == kv.1))))⟩

/-- `df[ks]`: restrict (and reorder) to the listed columns. -/
def DFrame.selectCols (df : DFrame) (ks : List String) : DFrame :=
  ⟨ks, df.rows.map (fun r => ks.map (fun c => (c, rowGet r c)))⟩

/-- `df[mask]`: keep the rows satisfying a predicate, preserving order. -/
def DFrame.filterRows (df : DFrame) (p : Row → Bool) : DFrame :=
  ⟨df.cols, df.rows.filter p⟩

/-- Columns of `pd.DataFrame(records)`: union of the record keys in order of
first appearance. -/
def recordCols (recs : List Row) : List String :=
  recs.foldl
    (fun acc r => r.foldl
      (fun acc2 kv => if acc2.any (· == kv.1) then acc2 else acc2 ++ [kv.1]) acc)
    []

/-- `pd.DataFrame(records)`: every row is completed to the full column list,
missing fields as null. -/
def dfFromRecords (recs : List Row) : DFrame :=
  let cols := recordCols recs
  ⟨cols, recs.map (fun rec => cols.map (fun c => (c, rowGet rec c)))⟩

/-! ## Normalization (`Dashboard_Cyber._normalize_columns` and the
normalization tail of `_load_data`, lines 39-157) -/

/-- `c.strip().lower().replace(" ", "_")` — line 46. -/
def canonName (c : String) : String := pyUnderscore (pyLower (pyStrip c))

/-- The synonym map built at lines 49-69: for every guaranteed field that is
absent, the first present alias is renamed onto it. -/
def synonymMap (cols : List String) : List (String × String) :=
  let has := fun c => cols.any (· == c)
  (if !has "incident_id" && has "id" then [("id", "incident_id")] else []) ++
  (if !has "timestamp" && has "date" then [("date", "timestamp")] else []) ++
  (if !has "severity" then
    if has "level" then [("level", "severity")]
    else if has "priority" then [("priority", "severity")]
    else []
   else []) ++
  (if !has "type" then
    if has "category" then [("category", "type")]
    else if has "threat_type" then [("threat_type", "type")]
    else []
   else []) ++
  (if !has "status" && has "state" then [("state", "status")] else []) ++
  (if !has "assigned_to" && has "assignee" then [("assignee", "assigned_to")] else []) ++
  (if !has "asset" && has "affected_asset" then [("affected_asset", "asset")] else [])

/-- `_normalize_columns` (lines 39-75): canonicalize the column names, then
rename synonyms onto the guaranteed names. -/
def normalizeColumns (df : DFrame) : DFrame :=
  let df1 := df.renameAll canonName
  let m := synonymMap df1.cols
  df1.renameAll (fun c => ((m.lookup c).getD c))

/-- Does a column name look date-like (line 127: `"date" in c or "time" in c`)? -/
def dateLikeCol (c : String) : Bool := pyContains c "date" || pyContains c "time"

/-- Lines 114-116: columns are canonicalized only when the frame is non-empty. -/
def stageCols (df : DFrame) : DFrame :=
  if df.isEmpty then df else normalizeColumns df

/-- Lines 118-132: parse an existing `timestamp` column, otherwise derive one
from the first date-like column if any. -/
def stageTimestamp (df : DFrame) : DFrame :=
  if df.hasCol "timestamp" then df.mapCol "timestamp" parseCell
  else
    match df.cols.find? dateLikeCol with
    | some c => df.setColVals "timestamp" ((df.getCol c).map parseCell)
    | none => df

/-- One default fill of lines 134-144: create the column with its default
value when it is absent. -/
def DFrame.defaultCol (df : DFrame) (k : String) (v : Cell) : DFrame :=
  if df.hasCol k then df else df.setConst k v

/-- Lines 134-144: the five guaranteed categorical columns and their defaults. -/
def stageDefaults (df : DFrame) : DFrame :=
  ((((df.defaultCol "severity" (Cell.str "unknown")).defaultCol
      "type" (Cell.str "unknown")).defaultCol
      "status" (Cell.str "open")).defaultCol
      "assigned_to" (Cell.str "unassigned")).defaultCol
      "asset" (Cell.str "unknown")

/-- Lines 145-146: synthesize `incident_id = 1..n` when absent. -/
def stageId (df : DFrame) : DFrame :=
  if df.hasCol "incident_id" then df
  else df.setColVals "incident_id"
    ((List.range df.rows.length).map (fun i => Cell.int (Int.ofNat i + 1)))

/-- Line 149 applied to one cell:
`astype(str).str.lower().str.strip().fillna("unknown")`.  The `fillna` can
never fire because `astype(str)` already produced a string. -/
def sevCoerce (c : Cell) : Cell := Cell.str (pyStrip (pyLower (cellToStr c)))

/-- Line 149: normalize the severity column to lower-case trimmed strings. -/
def stageSeverity (df : DFrame) : DFrame := df.mapCol "severity" sevCoerce

/-- The full normalization step of `_load_data` (lines 114-157) applied to a
loaded frame.  The category-dtype loop of lines 151-155 is the identity here
because the model has no categorical dtype. -/
def normalizeTable (df : DFrame) : DFrame :=
  stageSeverity (stageId (stageDefaults (stageTimestamp (stageCols df))))

/-- Normalization of a raw record set: build the frame, then normalize. -/
def normalizeRecords (recs : List Row) : DFrame :=
  normalizeTable (dfFromRecords recs)

/-! ## Filters and summary counts (`cyber_dashboard`, lines 294-319) -/

/-- The sidebar filter state: the inclusive date bounds (the sidebar always
supplies concrete dates, lines 271-277) and the four categorical multiselect
lists. -/
structure FilterSpec where
  startDate : Int
  endDate : Int
  selTypes : List String
  selSev : List String
  selStatus : List String
  selAssignees : List String
deriving DecidableEq, Repr

/-- Timestamp-range mask of line 298; comparisons against a missing timestamp
are false, as they are against `NaT`, so such rows are dropped by the mask. -/
def cellInRange (c : Cell) (s e : Int) : Bool :=
  match c with
  | Cell.date d => s ≤ d && d ≤ e
  | _ => false

/-- The filter block of `cyber_dashboard` (lines 294-309): the date-range
mask is always applied when a `timestamp` column exists (the `except` of
lines 299-301 cannot fire on a datetime column), then one `isin` mask per
non-empty selection (an empty multiselect list applies no mask). -/
def applyFilters (df : DFrame) (sp : FilterSpec) : DFrame :=
  let df := if df.hasCol "timestamp" then
      df.filterRows (fun r => cellInRange (rowGet r "timestamp") sp.startDate sp.endDate)
    else df
  let df := if sp.selTypes.isEmpty then df
    else df.filterRows (fun r => sp.selTypes.any (· == cellToStr (rowGet r "type")))
  let df := if sp.selSev.isEmpty then df
    else df.filterRows (fun r => sp.selSev.any (· == cellToStr (rowGet r "severity")))
  let df := if sp.selStatus.isEmpty then df
    else df.filterRows (fun r =>
      (sp.selStatus.map pyLower).any (· == pyLower (cellToStr (rowGet r "status"))))
  let df := if sp.selAssignees.isEmpty then df
    else df.filterRows (fun r => sp.selAssignees.any (· == cellToStr (rowGet r "assigned_to")))
  df

/-- The dashboard's unresolved-incident count (line 318, same mask as line
172): rows whose lower-cased status string differs from `"resolved"`. -/
def unresolvedCount (df : DFrame) : Nat :=
  (df.rows.filter (fun r => !(pyLower (cellToStr (rowGet r "status")) == "resolved"))).length

/-- The count the specification describes: rows whose status is neither
`"resolved"` nor `"closed"` (case-insensitively). -/
def specUnresolvedCount (df : DFrame) : Nat :=
  (df.rows.filter (fun r =>
    !(pyLower (cellToStr (rowGet r "status")) == "resolved") &&
    !(pyLower (cellToStr (rowGet r "status")) == "closed"))).length

/-- Rows whose status is (case-insensitively) `"closed"`. -/
def closedCount (df : DFrame) : Nat :=
  (df.rows.filter (fun r => pyLower (cellToStr (rowGet r "status")) == "closed")).length

/-! ## JSON-bound Python values (`app/common/ai_tools.py`)

`PyVal` models the values appearing in the `build_ai_context` payload:
JSON-native scalars, pandas `Timestamp`s, numpy scalars, lists and
string-keyed dicts.  Python tuples serialize to JSON arrays and are modelled
as lists.  Floats are carried as exact rationals plus an explicit NaN; no
claim inspects their numeric content. -/

inductive PyVal where
  | vNone
  | vNan
  | vBool (b : Bool)
  | vInt (n : Int)
  | vFloat (q : Rat)
  | vStr (s : String)
  | vTimestamp (d : Int)
  | vNpInt (n : Int)
  | vNpFloat (q : Rat)
  | vNpBool (b : Bool)
  | vList (l : List PyVal)
  | vDict (l : List (String × PyVal))

mutual

/-- Can `json.dumps` serialize the value?  `None`, bools, ints, floats (NaN
included — `json.dumps` emits `NaN`) and strings are native; `np.float64`
subclasses `float` and passes; `np.int64`, `np.bool_` and `Timestamp` raise
`TypeError`; containers require every member to pass. -/
def isJsonable : PyVal → Bool
  | PyVal.vNone => true
  | PyVal.vNan => true
  | PyVal.vBool _ => true
  | PyVal.vInt _ => true
  | PyVal.vFloat _ => true
  | PyVal.vStr _ => true
  | PyVal.vTimestamp _ => false
  | PyVal.vNpInt _ => false
  | PyVal.vNpFloat _ => true
  | PyVal.vNpBool _ => false
  | PyVal.vList l => isJsonableList l
  | PyVal.vDict l => isJsonableKVs l

/-- All members of a list serialize. -/
def isJsonableList : List PyVal → Bool
  | [] => true
  | v :: t => isJsonable v && isJsonableList t

/-- All values of a string-keyed dict serialize. -/
def isJsonableKVs : List (String × PyVal) → Bool
  | [] => true
  | kv :: t => isJsonable kv.2 && isJsonableKVs t

end

mutual

/-- `_convert_types_for_json` (ai_tools.py lines 71-89): recursively convert
numpy scalars to native Python types; dicts, lists and tuples are walked,
everything else (pandas `Timestamp` included) passes through unchanged. -/
def convertTypesForJson : PyVal → PyVal
  | PyVal.vNpInt n => PyVal.vInt n
  | PyVal.vNpFloat q => PyVal.vFloat q
  | PyVal.vNpBool b => PyVal.vBool b
  | PyVal.vList l => PyVal.vList (convertList l)
  | PyVal.vDict l => PyVal.vDict (convertKVs l)
  | v => v

/-- `_convert_types_for_json` over the members of a list. -/
def convertList : List PyVal → List PyVal
  | [] => []
  | v :: t => convertTypesForJson v :: convertList t

/-- `_convert_types_for_json` over the values of a dict. -/
def convertKVs : List (String × PyVal) → List (String × PyVal)
  | [] => []
  | kv :: t => (kv.1, convertTypesForJson kv.2) :: convertKVs t

end

mutual

/-- `str(v)` on a payload value.  The exact rendering is immaterial to the
claims; the model only needs a total, deterministic string. -/
def pyValToStr : PyVal → String
  | PyVal.vNone => "None"
  | PyVal.vNan => "nan"
  | PyVal.vBool b => if b then "True" else "False"
  | PyVal.vInt n => toString n
  | PyVal.vFloat q => toString q
  | PyVal.vStr s => s
  | PyVal.vTimestamp d => toString d
  | PyVal.vNpInt n => toString n
  | PyVal.vNpFloat q => toString q
  | PyVal.vNpBool b => if b then "True" else "False"
  | PyVal.vList l => "[" ++ pyValStrList l ++ "]"
  | PyVal.vDict l => "dict[" ++ pyValStrKVs l ++ "]"

/-- Renderer over list members. -/
def pyValStrList : List PyVal → String
  | [] => ""
  | [v] => pyValToStr v
  | v :: t => pyValToStr v ++ ", " ++ pyValStrList t

/-- Renderer over dict items. -/
def pyValStrKVs : List (String × PyVal) → String
  | [] => ""
  | [kv] => kv.1 ++ ": " ++ pyValToStr kv.2
  | kv :: t => kv.1 ++ ": " ++ pyValToStr kv.2 ++ ", " ++ pyValStrKVs t

end

/-- The serialization guard of `build_ai_context` (lines 169-177): when the
quick `json.dumps` check fails, every top-level field that does not serialize
is replaced by its `str()` rendering. -/
def finalizePayload (ctx : List (String × PyVal)) : List (String × PyVal) :=
  if ctx.all (fun kv => isJsonable kv.2) then ctx
  else ctx.map (fun kv => if isJsonable kv.2 then kv else (kv.1, PyVal.vStr (pyValToStr kv.2)))

/-! ## PII scrub and payload assembly (`ai_tools.py`) -/

/-- `DEFAULT_PII_KEYWORDS` (lines 16-19). -/
def DEFAULT_PII_KEYWORDS : List String :=
  ["email", "e-mail", "ip", "ip_address", "ssn", "social", "password",
   "pwd", "token", "secret", "username", "user", "phone", "mobile"]

/-- `any(k in c.lower() for k in pii_keywords)` (line 27). -/
def piiMatch (c : String) : Bool :=
  DEFAULT_PII_KEYWORDS.any (fun k => pyContains (pyLower c) k)

/-- `_mask_or_drop_pii_cols` (lines 22-31). -/
def maskOrDropPiiCols (df : DFrame) : DFrame × List String :=
  let colsToDrop := df.cols.filter piiMatch
  if colsToDrop.isEmpty then (df, []) else (df.dropCols colsToDrop, colsToDrop)

/-- Timestamp key of a row for sorting, when it holds a parsed date. -/
def tsOf (r : Row) : Option Int :=
  match rowGet r "timestamp" with
  | Cell.date d => some d
  | _ => none

/-- Strictly-later comparison for descending timestamp sort; rows without a
parsed timestamp sort to the end (`NaT` is placed last). -/
def tsGT (a b : Row) : Bool :=
  match tsOf a, tsOf b with
  | some x, some y => y < x
  | some _, none => true
  | _, _ => false

/-- Insert a row into a list sorted by descending timestamp. -/
def insertRowDesc (r : Row) : List Row → List Row
  | [] => [r]
  | x :: t => if tsGT x r then x :: insertRowDesc r t else r :: x :: t

/-- `sort_values("timestamp", ascending=False)`.  The model sorts stably;
the pandas kind is unspecified among ties, which no claim observes. -/
def sortRowsDesc : List Row → List Row
  | [] => []
  | x :: t => insertRowDesc x (sortRowsDesc t)

/-- One record of `to_dict(orient="records")`: pandas hands back numpy
scalars for numbers, `Timestamp`s for dates and `NaN` for missing values. -/
def cellToPy : Cell → PyVal
  | Cell.null => PyVal.vNan
  | Cell.str s => PyVal.vStr s
  | Cell.int n => PyVal.vNpInt n
  | Cell.date d => PyVal.vTimestamp d

/-- A row as a sample-row dict. -/
def rowToDict (r : Row) : PyVal :=
  PyVal.vDict (r.map (fun kv => (kv.1, cellToPy kv.2)))

/-- `_safe_sample_rows` (lines 34-43): up to `maxRows` most recent rows. -/
def safeSampleRows (df : DFrame) (maxRows : Nat) : List PyVal :=
  if df.isEmpty then []
  else if df.hasCol "timestamp" then
    ((sortRowsDesc df.rows).take maxRows).map rowToDict
  else (df.rows.take maxRows).map rowToDict

/-- Count of one value in a string list. -/
def countVal (vals : List String) (v : String) : Nat :=
  (vals.filter (· == v)).length

/-- Distinct values in order of first appearance. -/
def distinctVals (vals : List String) : List String :=
  vals.foldl (fun acc v => if acc.any (· == v) then acc else acc ++ [v]) []

/-- Insert into a count-descending list (stable). -/
def insertCountDesc (p : String × Nat) : List (String × Nat) → List (String × Nat)
  | [] => [p]
  | x :: t => if p.2 < x.2 then x :: insertCountDesc p t else p :: x :: t

/-- Stable count-descending sort. -/
def sortCountDesc : List (String × Nat) → List (String × Nat)
  | [] => []
  | x :: t => insertCountDesc x (sortCountDesc t)

/-- `value_counts().head(topn)` on the stringified column: values with their
multiplicities, most frequent first.  The pandas tie order is internal; the
model keeps first appearance, which no claim observes. -/
def valueCountsTop (vals : List String) (topn : Nat) : List (String × Nat) :=
  (sortCountDesc ((distinctVals vals).map (fun v => (v, countVal vals v)))).take topn

/-- `_top_value_counts` (lines 61-68): per present column, the top value
counts as a dict of native ints. -/
def topValueCounts (df : DFrame) (cs : List String) (topn : Nat) : List (String × PyVal) :=
  (cs.filter df.hasCol).map (fun c =>
    (c, PyVal.vDict ((valueCountsTop ((df.getCol c).map cellToStr) topn).map
      (fun p => (p.1, PyVal.vInt (Int.ofNat p.2))))))

/-- A cell a numeric (`np.number`) column may hold: an integer or a missing
value (an all-or-partially null integer column is a float column in pandas). -/
def isNumericCell : Cell → Bool
  | Cell.int _ => true
  | Cell.null => true
  | _ => false

/-- Does `select_dtypes(include=[np.number])` keep the column? -/
def isNumericCol (df : DFrame) (c : String) : Bool :=
  (df.getCol c).all isNumericCell

/-- The integers of a column (non-null entries). -/
def intVals (cells : List Cell) : List Int :=
  cells.filterMap (fun c => match c with | Cell.int n => some n | _ => none)

/-- Insert into an ascending integer list. -/
def insertIntAsc (n : Int) : List Int → List Int
  | [] => [n]
  | x :: t => if x < n then x :: insertIntAsc n t else n :: x :: t

/-- Ascending sort of integers. -/
def sortIntAsc : List Int → List Int
  | [] => []
  | x :: t => insertIntAsc x (sortIntAsc t)

/-- Linear-interpolation percentile of a non-empty ascending list, as pandas
computes quantiles. -/
def percentileR (sorted : List Int) (p : Rat) : Rat :=
  let n := sorted.length
  let h : Rat := p * ((n : Rat) - 1)
  let lo := h.floor
  let hi := h.ceil
  let vlo : Rat := (sorted.getD lo.toNat 0 : Int)
  let vhi : Rat := (sorted.getD hi.toNat 0 : Int)
  vlo + (h - (lo : Rat)) * (vhi - vlo)

/-- `describe()` of one numeric column, as a stat-name-to-float dict.  The
count of an empty column is `0` and its other stats `NaN`; the standard
deviation of a singleton is `NaN`.  The `std` entry records the sample
variance: its square root is irrational in general, and only the
JSON-representability of the float matters to any claim here. -/
def describeCol (cells : List Cell) : List (String × PyVal) :=
  let xs := intVals cells
  let n := xs.length
  if n = 0 then
    [("count", PyVal.vFloat 0), ("mean", PyVal.vNan), ("std", PyVal.vNan),
     ("min", PyVal.vNan), ("25%", PyVal.vNan), ("50%", PyVal.vNan),
     ("75%", PyVal.vNan), ("max", PyVal.vNan)]
  else
    let sorted := sortIntAsc xs
    let mean : Rat := ((xs.foldl (· + ·) 0 : Int) : Rat) / (n : Rat)
    let stdv : PyVal :=
      if n < 2 then PyVal.vNan
      else PyVal.vFloat
        (((xs.map (fun x => ((x : Rat) - mean) ^ 2)).foldl (· + ·) 0) / ((n : Rat) - 1))
    [("count", PyVal.vFloat (n : Rat)), ("mean", PyVal.vFloat mean), ("std", stdv),
     ("min", PyVal.vFloat ((sorted.getD 0 0 : Int) : Rat)),
     ("25%", PyVal.vFloat (percentileR sorted (1/4))),
     ("50%", PyVal.vFloat (percentileR sorted (1/2))),
     ("75%", PyVal.vFloat (percentileR sorted (3/4))),
     ("max", PyVal.vFloat ((sorted.getD (n - 1) 0 : Int) : Rat))]

/-- `_summarize_numeric` (lines 46-58) as called by `build_ai_context`
(no column restriction): numeric columns with their `describe()` stats,
numpy scalars already converted to native floats.  The statistics library
call is treated as total in the model. -/
def summarizeNumeric (df : DFrame) : List (String × PyVal) :=
  if df.isEmpty then []
  else (df.cols.filter (isNumericCol df)).map (fun c =>
    (c, PyVal.vDict (describeCol (df.getCol c))))

/-- Key of one timeseries bucket. -/
def tsBucket (today : Int) (r : Row) : Option (Int × Cell) :=
  match parseCell (rowGet r "timestamp") with
  | Cell.date d =>
    if today - 90 ≤ d then
      match rowGet r "type" with
      | Cell.null => none
      | ty => some (d, ty)
    else none
  | _ => none

/-- Distinct bucket keys in order of first appearance. -/
def distinctPairs (l : List (Int × Cell)) : List (Int × Cell) :=
  l.foldl (fun acc p => if acc.any (· == p) then acc else acc ++ [p]) []

/-- Insert into a day-ascending bucket list. -/
def insertDayAsc (p : Int × Cell) : List (Int × Cell) → List (Int × Cell)
  | [] => [p]
  | x :: t => if x.1 < p.1 then x :: insertDayAsc p t else p :: x :: t

/-- Day-ascending stable sort of bucket keys. -/
def sortDayAsc : List (Int × Cell) → List (Int × Cell)
  | [] => []
  | x :: t => insertDayAsc x (sortDayAsc t)

/-- Lines 142-152: the last-90-days timeseries.  Rows without a parseable
timestamp and null group keys are dropped by the groupby; a missing `type`
column raises a `KeyError` that the `except` turns into `[]`.  Group keys are
ordered by day; the ordering among categories within one day is internal to
the groupby and immaterial to the claims.  The `count` of `size()` is a numpy
integer and the `date` key a `Timestamp`. -/
def timeseriesLast90 (df2 : DFrame) (today : Int) : PyVal :=
  if df2.hasCol "timestamp" then
    if df2.hasCol "type" then
      let pairs := df2.rows.filterMap (tsBucket today)
      PyVal.vList ((sortDayAsc (distinctPairs pairs)).map (fun p =>
        PyVal.vDict [("date", PyVal.vTimestamp p.1), ("type", cellToPy p.2),
                     ("count", PyVal.vNpInt (Int.ofNat (countVal
                       (pairs.map (fun q => toString q.1 ++ "|" ++ cellToStr q.2))
                       (toString p.1 ++ "|" ++ cellToStr p.2))))]))
    else PyVal.vList []
  else PyVal.vList []

/-- Lines 154-165: the short text summary.  Python tuples `(value, count)`
serialize as JSON arrays and are modelled as two-element lists. -/
def textSummary (nrows : Nat) (tc : List (String × PyVal)) : PyVal :=
  let tt := match tc.lookup "type" with
    | some (PyVal.vDict l) => l.take 5
    | _ => []
  let ts := match tc.lookup "severity" with
    | some (PyVal.vDict l) => l.take 5
    | _ => []
  PyVal.vDict
    [("total_incidents", PyVal.vInt (Int.ofNat nrows)),
     ("top_types", PyVal.vList (tt.map (fun p => PyVal.vList [PyVal.vStr p.1, p.2]))),
     ("top_severity", PyVal.vList (ts.map (fun p => PyVal.vList [PyVal.vStr p.1, p.2])))]

/-- Lines 118-120: the optional column allow-list, applied after the PII
scrub; a `None` or empty list restricts nothing (Python falsiness of
`include_cols`). -/
def restrictCols (df : DFrame) (includeCols : Option (List String)) : DFrame :=
  match includeCols with
  | some l => if l.isEmpty then df else df.selectCols (l.filter df.hasCol)
  | none => df

/-- The frame the payload statistics and samples are drawn from: the input
after the PII scrub and the optional column restriction. -/
def contextFrame (df : DFrame) (includeCols : Option (List String)) : DFrame :=
  restrictCols (maskOrDropPiiCols df).1 includeCols

/-- The context assembly of `build_ai_context` (lines 104-165) for a
non-empty frame, before the serialization guard.  `today` injects
`pd.Timestamp.now()` at day resolution. -/
def buildAiContextCore (df : DFrame) (filters : Option (List (String × PyVal)))
    (includeCols : Option (List String)) (maxSampleRows : Nat) (today : Int) :
    List (String × PyVal) :=
  let droppedCols := (maskOrDropPiiCols df).2
  let df2 := contextFrame df includeCols
  let tc := topValueCounts df2 ["type", "severity", "status", "asset", "assigned_to"] 10
  [("n_rows", PyVal.vInt (Int.ofNat df2.rows.length)),
   ("n_columns", PyVal.vInt (Int.ofNat df2.cols.length)),
   ("columns", PyVal.vList (df2.cols.map PyVal.vStr)),
   ("dropped_pii_columns", PyVal.vList (droppedCols.map PyVal.vStr)),
   ("filters", PyVal.vDict (filters.getD [])),
   ("top_counts", PyVal.vDict tc),
   ("numeric_summary", PyVal.vDict (summarizeNumeric df2)),
   ("sample_rows", PyVal.vList (safeSampleRows df2 maxSampleRows)),
   ("timeseries_last_90d_by_type", timeseriesLast90 df2 today),
   ("text_summary", textSummary df2.rows.length tc)]

/-- `build_ai_context` (lines 92-179): the empty-input note, the context
assembly, `_convert_types_for_json`, and the serialization guard. -/
def buildAiContext (df : Option DFrame) (filters : Option (List (String × PyVal)))
    (includeCols : Option (List String)) (maxSampleRows : Nat) (today : Int) :
    List (String × PyVal) :=
  match df with
  | none => [("note", PyVal.vStr "No incident data available.")]
  | some d =>
    if d.isEmpty then [("note", PyVal.vStr "No incident data available.")]
    else finalizePayload (convertKVs (buildAiContextCore d filters includeCols maxSampleRows today))

/-! ## RAG index (`app/common/rag.py`) -/

/-- One metadata entry stored alongside the vector index: original id and
source text (rag.py line 100). -/
structure RagMeta where
  id : Cell
  text : String
deriving DecidableEq, Repr, Inhabited

/-- A flat L2 vector index (`faiss.IndexFlatL2`): the stored embeddings. -/
structure FaissIndex where
  dim : Nat
  vecs : List (List Rat)
deriving Repr

/-- Squared L2 distance, the metric of `IndexFlatL2`. -/
def l2dist (a b : List Rat) : Rat :=
  ((a.zip b).map (fun p => (p.1 - p.2) ^ 2)).foldl (· + ·) 0

/-- Insert into a distance-ascending hit list. -/
def insertHit (p : Int × Rat) : List (Int × Rat) → List (Int × Rat)
  | [] => [p]
  | x :: t => if x.2 < p.2 then x :: insertHit p t else p :: x :: t

/-- Distance-ascending sort of hits. -/
def sortHits : List (Int × Rat) → List (Int × Rat)
  | [] => []
  | x :: t => insertHit x (sortHits t)

/-- `index.search(q_emb, k)`: the `k` nearest stored vectors by ascending L2
distance; when fewer than `k` vectors exist, faiss pads the result with
id `-1`. -/
def faissSearch (idx : FaissIndex) (q : List Rat) (k : Nat) : List (Int × Rat) :=
  let scored := idx.vecs.enum.map (fun p => (Int.ofNat p.1, l2dist p.2 q))
  let sorted := sortHits scored
  (sorted ++ (List.range k).map (fun _ => ((-1 : Int), (0 : Rat)))).take k

/-- The queryable state of a `RAG` object: the optional index and the
metadata list. -/
structure RAGState where
  index : Option FaissIndex
  metadata : List RagMeta

/-- `RAG.query` (rag.py lines 119-135).  The embedding model is the injected
`encode` capability; when the index is missing or the metadata list empty the
method returns `[]` before touching the model, so an unbuilt index can never
raise.  Hits whose id falls outside the metadata bounds are dropped. -/
def ragQuery (st : RAGState) (encode : String → List Rat) (q : String) (k : Nat) :
    List (RagMeta × Rat) :=
  match st.index with
  | none => []
  | some idx =>
    if st.metadata.isEmpty then []
    else
      let hits := faissSearch idx (encode q) k
      (hits.filter (fun h => 0 ≤ h.1 && h.1 < Int.ofNat st.metadata.length)).map
        (fun h => ((st.metadata.getD h.1.toNat default), h.2))

/-! ## Text-generation dependency error flow
(`ai_core.py` and `app/common/ai_client.py`, with the call sites of
`Dashboard_Cyber.cyber_dashboard` lines 600-631)

Exceptions of the external SDKs are modelled as `Except.error` outcomes
injected into the callers; every modelled caller is a total function into
`String`, which is the never-raises-uncaught guarantee in this embedding. -/

/-- `AIAssistant.__init__` key lookup (ai_core.py lines 21-33): the client
exists only when a non-empty key was found in secrets or the environment. -/
def aiAssistantClient (apiKey : Option String) : Option Unit :=
  match apiKey with
  | some k => if k.isEmpty then none else some ()
  | none => none

/-- `AIAssistant.ask` (ai_core.py lines 35-63): without a client the marked
error string is returned; with one, the call outcome is either the stripped
completion or the marked `[AI Error]` string. -/
def askAICore (client : Option Unit) (callOutcome : Except String String) : String :=
  match client with
  | none => "⚠️ [Error] No API Key found. Check .streamlit/secrets.toml"
  | some _ =>
    match callOutcome with
    | Except.ok s => pyStrip s
    | Except.error e => "⚠️ [AI Error] " ++ e

/-- `AIClient.__init__` (ai_client.py lines 33-37): missing key or missing
SDK raise, modelled as `Except.error` with the raised message. -/
def aiClientInit (apiKey : String) (hasSdk : Bool) : Except String Unit :=
  if (pyStrip apiKey).isEmpty then
    Except.error "OpenRouter API key missing. Set OPENROUTER_API_KEY in environment or .env"
  else if !hasSdk then
    Except.error "openrouter SDK is not installed. Install it or provide a mock."
  else Except.ok ()

/-- `AIClient.chat` (ai_client.py lines 39-104): every exception of the
upstream call is caught and rendered as the marked `[AI error: ...]` string;
a successful call returns the stripped collected text. -/
def aiClientChat (callOutcome : Except String String) : String :=
  match callOutcome with
  | Except.ok s => pyStrip s
  | Except.error e => "[AI error: " ++ e ++ "]"

/-- The dashboard call site (Dashboard_Cyber.py lines 600-631): a failing
`get_ai_client()` is caught and rendered as `[AI client error: ...]`;
otherwise the chat result (itself never raising) is used. -/
def dashboardAiReply (initOutcome : Except String Unit)
    (chatOutcome : Except String String) : String :=
  match initOutcome with
  | Except.error e => "[AI client error: " ++ e ++ "]"
  | Except.ok _ => aiClientChat chatOutcome

/-- Is a reply one of the clearly marked error strings of the three layers? -/
def isErrorMarked (s : String) : Bool :=
  "⚠️ [Error]".data.isPrefixOf s.data ||
  "⚠️ [AI Error]".data.isPrefixOf s.data ||
  "[AI error:".data.isPrefixOf s.data ||
  "[AI client error:".data.isPrefixOf s.data

/-! ## Concrete inputs used by counterexamples and witnesses -/

/-- One record whose status is `"Closed"`. -/
def closedRecs : List Row := [[("status", Cell.str "Closed")]]

/-- One record with a null status cell and no timestamp-like field. -/
def nullStatusRecs : List Row := [[("status", Cell.null)]]

/-- A two-row frame whose second row has a null timestamp (`NaT`). -/
def filterDemoDf : DFrame :=
  ⟨["timestamp", "type"],
   [[("timestamp", Cell.date 19000), ("type", Cell.str "phishing")],
    [("timestamp", Cell.null), ("type", Cell.str "malware")]]⟩

/-- A two-row frame whose timestamps are all parsed dates. -/
def allDatesDf : DFrame :=
  ⟨["timestamp", "type"],
   [[("timestamp", Cell.date 19000), ("type", Cell.str "phishing")],
    [("timestamp", Cell.date 19500), ("type", Cell.str "malware")]]⟩

/-- A zero-row frame carrying a `user_email` column (`df.empty` is true). -/
def emptyUserEmailDf : DFrame := ⟨["user_email"], []⟩

/-- A zero-row frame carrying a `description` column (`df.empty` is true). -/
def emptyDescriptionDf : DFrame := ⟨["description"], []⟩

/-- A one-row frame with a `user_email` column, for the PII-scrub witness. -/
def userEmailDf : DFrame :=
  ⟨["user_email", "type"],
   [[("user_email", Cell.str "a@b.example"), ("type", Cell.str "phishing")]]⟩

/-- A one-row frame with a `description` column, for the PII-scrub witness. -/
def descriptionDf : DFrame :=
  ⟨["description", "severity"],
   [[("description", Cell.str "malware found"), ("severity", Cell.str "high")]]⟩

/-! ## Theorems -/

/-! ## Generic list lemmas -/

theorem isPrefixOf_append_self (l t : List Char) : l.isPrefixOf (l ++ t) = true := by
  induction l with
  | nil => simp
  | cons a as ih => simp [List.isPrefixOf, ih]

theorem isJsonableKVs_eq_all (l : List (String × PyVal)) :
    isJsonableKVs l = l.all (fun kv => isJsonable kv.2) := by
  induction l with
  | nil => rfl
  | cons kv t ih => simp [isJsonableKVs, ih]

theorem length_filter_status {α : Type} (f : α → String) (l : List α) :
    (l.filter (fun x => !(f x == "resolved"))).length =
      (l.filter (fun x => !(f x == "resolved") && !(f x == "closed"))).length +
      (l.filter (fun x => f x == "closed")).length := by
  induction l with
  | nil => rfl
  | cons a t ih =>
    by_cases h1 : (f a == "resolved") = true
    · have h2 : (f a == "closed") = false := by
        have := eq_of_beq h1
        apply beq_eq_false_iff_ne.mpr
        rw [this]
        decide
      simp [List.filter_cons, h1, h2, ih]
    · rw [Bool.not_eq_true] at h1
      by_cases h2 : (f a == "closed") = true
      · simp [List.filter_cons, h1, h2, ih]
        omega
      · rw [Bool.not_eq_true] at h2
        simp [List.filter_cons, h1, h2, ih]
        omega

/-! ## C3 — the dashboard's "unresolved" count -/

/-- C3 counterexample: on the normalized single record with status
`"Closed"`, the dashboard counts 1 unresolved incident while the claimed
count (status neither `"resolved"` nor `"closed"`) is 0, so the two counts
are not equal for every normalized table. -/
theorem c3_unresolved_count_counterexample :
    ¬ (unresolvedCount (normalizeRecords closedRecs) =
        specUnresolvedCount (normalizeRecords closedRecs)) := by decide

/-- C3 amended: the summary's "unresolved" count equals the number of rows
whose status (case-insensitively) is not `"resolved"`; equivalently it
exceeds the claimed count by exactly the number of rows whose status is
(case-insensitively) `"closed"`, which the code counts as unresolved. -/
theorem c3_unresolved_count_amended (df : DFrame) :
    unresolvedCount df = specUnresolvedCount df + closedCount df :=
  length_filter_status (fun r => pyLower (cellToStr (rowGet r "status"))) df.rows

/-! ## C4 — the concrete normalization scenario -/

/-- C4: normalizing the single record
`{"date": "2024-01-01", "Severity": "HIGH", "Type": "phishing"}` yields one
row with timestamp 2024-01-01, severity `"high"`, type `"phishing"`, status
`"open"`, assigned_to `"unassigned"`, asset `"unknown"` (and the synthesized
`incident_id` 1). -/
theorem c4_concrete_scenario :
    normalizeRecords
        [[("date", Cell.str "2024-01-01"), ("Severity", Cell.str "HIGH"),
          ("Type", Cell.str "phishing")]] =
      ⟨["timestamp", "severity", "type", "status", "assigned_to", "asset", "incident_id"],
       [[("timestamp", Cell.date (daysFromCivil 2024 1 1)),
         ("severity", Cell.str "high"),
         ("type", Cell.str "phishing"),
         ("status", Cell.str "open"),
         ("assigned_to", Cell.str "unassigned"),
         ("asset", Cell.str "unknown"),
         ("incident_id", Cell.int 1)]]⟩ := by decide

/-! ## C5 — empty selections filter nothing, but the date mask always runs -/

/-- C5 counterexample: the code has no unbounded date range — lines 296-301
always apply the concrete-range mask when a `timestamp` column exists, and a
comparison against `NaT` is false.  With every categorical selected-set empty
and bounds wide enough to cover every date in the table, the row whose
timestamp is null is still dropped, so the filter step is not the identity. -/
theorem c5_empty_filter_counterexample :
    ¬ (applyFilters filterDemoDf ⟨-100000, 100000, [], [], [], []⟩ = filterDemoDf) := by
  decide

/-- C5 amended: an empty selected-set applies no filtering on its field, so
with every categorical selected-set empty the filter step returns the input
unchanged provided the date mask also keeps every row — the table either has
no `timestamp` column, or every row's timestamp is a non-null date lying
inside the chosen bounds.  (A row with a null timestamp is dropped by any
date range.) -/
theorem c5_empty_filter_identity (df : DFrame) (sp : FilterSpec)
    (ht : sp.selTypes = []) (hv : sp.selSev = [])
    (hstat : sp.selStatus = []) (ha : sp.selAssignees = [])
    (hok : df.hasCol "timestamp" = false ∨
      ∀ r ∈ df.rows, cellInRange (rowGet r "timestamp") sp.startDate sp.endDate = true) :
    applyFilters df sp = df := by
  have hdate : (if df.hasCol "timestamp" then
      df.filterRows (fun r => cellInRange (rowGet r "timestamp") sp.startDate sp.endDate)
    else df) = df := by
    rcases hok with hok | hok
    · rw [hok]
      simp
    · by_cases hc : df.hasCol "timestamp"
      · rw [if_pos hc]
        unfold DFrame.filterRows
        have : df.rows.filter
            (fun r => cellInRange (rowGet r "timestamp") sp.startDate sp.endDate) = df.rows :=
          List.filter_eq_self.mpr hok
        rw [this]
      · rw [if_neg hc]
  show (let df2 := if df.hasCol "timestamp" then
      df.filterRows (fun r => cellInRange (rowGet r "timestamp") sp.startDate sp.endDate)
    else df;
    let df3 := if sp.selTypes.isEmpty then df2
      else df2.filterRows (fun r => sp.selTypes.any (· == cellToStr (rowGet r "type")));
    let df4 := if sp.selSev.isEmpty then df3
      else df3.filterRows (fun r => sp.selSev.any (· == cellToStr (rowGet r "severity")));
    let df5 := if sp.selStatus.isEmpty then df4
      else df4.filterRows (fun r =>
        (sp.selStatus.map pyLower).any (· == pyLower (cellToStr (rowGet r "status"))));
    if sp.selAssignees.isEmpty then df5
      else df5.filterRows (fun r => sp.selAssignees.any (· == cellToStr (rowGet r "assigned_to")))) = df
  simp only [hdate, ht, hv, hstat, ha, List.isEmpty_nil, if_true]

/-- C5 witness: a concrete all-dated frame, wide concrete bounds, and the
all-empty categorical selections. -/
theorem c5_empty_filter_identity_witness :
    applyFilters allDatesDf ⟨18000, 20000, [], [], [], []⟩ = allDatesDf :=
  c5_empty_filter_identity allDatesDf ⟨18000, 20000, [], [], [], []⟩
    rfl rfl rfl rfl (Or.inr (by decide))

/-! ## C7 — querying an unbuilt RAG index -/

/-- C7: querying a RAG state whose index is missing or whose metadata list is
empty returns the empty result list for every query string and every k — the
guard returns before the embedding model is ever touched, so the call cannot
raise. -/
theorem c7_empty_index_query (st : RAGState) (encode : String → List Rat)
    (q : String) (k : Nat) (h : st.index = none ∨ st.metadata = []) :
    ragQuery st encode q k = [] := by
  rcases h with h | h
  · simp [ragQuery, h]
  · cases hi : st.index with
    | none => simp [ragQuery, hi]
    | some idx => simp [ragQuery, hi, h]

/-- C7 witness: the freshly constructed, never-built state. -/
theorem c7_empty_index_query_witness :
    ragQuery ⟨none, []⟩ (fun _ => []) "why the spike in phishing?" 5 = [] :=
  c7_empty_index_query ⟨none, []⟩ (fun _ => []) "why the spike in phishing?" 5
    (Or.inl rfl)

/-! ## C8 — the context payload always serializes -/

theorem isJsonableKVs_stringify (l : List (String × PyVal)) :
    isJsonableKVs (l.map (fun kv =>
      if isJsonable kv.2 then kv else (kv.1, PyVal.vStr (pyValToStr kv.2)))) = true := by
  induction l with
  | nil => rfl
  | cons kv t ih =>
    simp only [List.map_cons, isJsonableKVs, Bool.and_eq_true]
    refine ⟨?_, ih⟩
    by_cases hv : isJsonable kv.2 = true <;> simp [hv, isJsonable]

theorem isJsonableKVs_finalizePayload (l : List (String × PyVal)) :
    isJsonableKVs (finalizePayload l) = true := by
  unfold finalizePayload
  by_cases h : l.all (fun kv => isJsonable kv.2)
  · simp [h, isJsonableKVs_eq_all]
  · simp only [h, if_neg, Bool.false_eq_true, not_false_eq_true, if_false]
    exact isJsonableKVs_stringify l

/-- C8: for every input (missing frame, empty frame, or any populated frame,
with any filters, column allow-list, sample bound and clock), the payload
returned by `build_ai_context` is JSON-serializable — a field that cannot be
represented natively has been stringified by the serialization guard rather
than aborting the payload. -/
theorem c8_payload_serializable (df : Option DFrame)
    (filters : Option (List (String × PyVal))) (includeCols : Option (List String))
    (maxSampleRows : Nat) (today : Int) :
    isJsonable (PyVal.vDict (buildAiContext df filters includeCols maxSampleRows today)) = true := by
  show isJsonableKVs (buildAiContext df filters includeCols maxSampleRows today) = true
  match df with
  | none => rfl
  | some d =>
    show isJsonableKVs (if d.isEmpty then _ else _) = true
    by_cases h : d.isEmpty
    · simp only [h, if_true]
      rfl
    · simp only [h, Bool.false_eq_true, if_false]
      exact isJsonableKVs_finalizePayload _

/-! ## C9 — unavailable text-generation dependency -/

theorem marker_prefix_of_append (m sp s : String) (h : sp.data = m.data ++ [' ']) :
    m.data.isPrefixOf ((sp ++ s).data) = true := by
  rw [String.data_append, h, List.append_assoc]
  exact isPrefixOf_append_self _ _

/-- C9: whenever the text-generation dependency is unavailable — no key found
by `AIAssistant`, an empty key for `AIClient`, or a failing upstream call —
every layer hands the caller a clearly marked error string: `AIAssistant.ask`
without a client or with a failing call, the dashboard call site around a
failing `get_ai_client()`, and `AIClient.chat` around a failing request.  All
modelled call paths are total functions into `String`, so no exception
escapes the calling flow. -/
theorem c9_unavailable_dependency_marked (failMsg : String)
    (chatOutcome : Except String String) :
    isErrorMarked (askAICore (aiAssistantClient none) chatOutcome) = true ∧
    isErrorMarked (askAICore (aiAssistantClient (some "")) chatOutcome) = true ∧
    isErrorMarked (askAICore (some ()) (Except.error failMsg)) = true ∧
    isErrorMarked (dashboardAiReply (aiClientInit "" true) chatOutcome) = true ∧
    isErrorMarked (aiClientChat (Except.error failMsg)) = true := by
  refine ⟨rfl, rfl, ?_, rfl, ?_⟩
  · have h2 : "⚠️ [AI Error]".data.isPrefixOf (("⚠️ [AI Error] " ++ failMsg).data) = true :=
      marker_prefix_of_append "⚠️ [AI Error]" "⚠️ [AI Error] " failMsg (by decide)
    simp [isErrorMarked, askAICore, h2]
  · have h2 : "[AI error:".data.isPrefixOf (("[AI error: " ++ failMsg ++ "]").data) = true := by
      rw [String.data_append, String.data_append]
      have e : ("[AI error: ").data = "[AI error:".data ++ [' '] := by decide
      rw [e, List.append_assoc, List.append_assoc]
      exact isPrefixOf_append_self _ _
    simp [isErrorMarked, aiClientChat, h2]

/-! ## Well-formedness machinery

Pandas keeps row values aligned with the column list; `DFrame.Wf` states this
and every frame operation preserves it. -/

theorem hasCol_iff_mem (df : DFrame) (k : String) : df.hasCol k = true ↔ k ∈ df.cols := by
  simp [DFrame.hasCol, List.any_eq_true]

theorem any_keys (r : Row) (k : String) :
    (r.any fun kv => kv.1 == k) = (r.map Prod.fst).any (· == k) := by
  induction r with
  | nil => rfl
  | cons kv t ih => simp_all [List.any_cons]

theorem rowHasKey_of_wf (df : DFrame) (k : String) (hwf : df.Wf) (r : Row)
    (hr : r ∈ df.rows) : rowHasKey r k = df.hasCol k := by
  have hkeys := hwf r hr
  show r.any (fun kv => kv.1 == k) = df.cols.any (· == k)
  rw [any_keys, hkeys]

theorem map_fst_rowSet (r : Row) (k : String) (v : Cell) :
    (rowSet r k v).map Prod.fst =
      if rowHasKey r k then r.map Prod.fst else r.map Prod.fst ++ [k] := by
  unfold rowSet
  by_cases h : rowHasKey r k
  · simp only [h, if_true, List.map_map]
    refine List.map_congr_left ?_
    intro kv _
    by_cases hk : kv.1 = k
    · simp [hk]
    · simp [hk]
  · simp [h]

theorem map_fst_rowMapVal (r : Row) (k : String) (f : Cell → Cell) :
    (rowMapVal k f r).map Prod.fst = r.map Prod.fst := by
  unfold rowMapVal
  rw [List.map_map]
  refine List.map_congr_left ?_
  intro kv _
  by_cases hk : kv.1 = k <;> simp [hk]

theorem wf_setConst (df : DFrame) (k : String) (v : Cell) (hwf : df.Wf) :
    (df.setConst k v).Wf := by
  intro r hr
  simp only [DFrame.setConst, List.mem_map] at hr
  obtain ⟨r0, hr0, rfl⟩ := hr
  rw [map_fst_rowSet, rowHasKey_of_wf df k hwf r0 hr0, hwf r0 hr0]
  by_cases h : df.hasCol k <;> simp [DFrame.setConst, h]

theorem wf_setColVals (df : DFrame) (k : String) (vs : List Cell) (hwf : df.Wf) :
    (df.setColVals k vs).Wf := by
  intro r hr
  simp only [DFrame.setColVals, List.mem_map] at hr
  obtain ⟨rv, hrv, rfl⟩ := hr
  have hr0 : rv.1 ∈ df.rows := List.of_mem_zip hrv |>.1
  rw [map_fst_rowSet, rowHasKey_of_wf df k hwf rv.1 hr0, hwf rv.1 hr0]
  by_cases h : df.hasCol k <;> simp [DFrame.setColVals, h]

theorem wf_mapCol (df : DFrame) (k : String) (f : Cell → Cell) (hwf : df.Wf) :
    (df.mapCol k f).Wf := by
  intro r hr
  simp only [DFrame.mapCol, List.mem_map] at hr
  obtain ⟨r0, hr0, rfl⟩ := hr
  rw [map_fst_rowMapVal, hwf r0 hr0]
  rfl

theorem wf_renameAll (df : DFrame) (f : String → String) (hwf : df.Wf) :
    (df.renameAll f).Wf := by
  intro r hr
  simp only [DFrame.renameAll, List.mem_map] at hr
  obtain ⟨r0, hr0, rfl⟩ := hr
  show List.map Prod.fst (r0.map fun kv => (f kv.1, kv.2)) = df.cols.map f
  rw [List.map_map, ← hwf r0 hr0, List.map_map]
  rfl

theorem map_fst_filter_keys (r : Row) (p : String → Bool) :
    (r.filter (fun kv => p kv.1)).map Prod.fst = (r.map Prod.fst).filter p := by
  induction r with
  | nil => rfl
  | cons kv t ih =>
    by_cases h : p kv.1 <;> simp [List.filter_cons, h, ih]

theorem wf_dropCols (df : DFrame) (ks : List String) (hwf : df.Wf) :
    (df.dropCols ks).Wf := by
  intro r hr
  simp only [DFrame.dropCols, List.mem_map] at hr
  obtain ⟨r0, hr0, rfl⟩ := hr
  show (r0.filter _).map Prod.fst = _
  rw [map_fst_filter_keys r0 (fun c => !(ks.any (· == c))), hwf r0 hr0]
  rfl

theorem wf_selectCols (df : DFrame) (ks : List String) : (df.selectCols ks).Wf := by
  intro r hr
  simp only [DFrame.selectCols, List.mem_map] at hr
  obtain ⟨r0, _, rfl⟩ := hr
  show (ks.map fun c => (c, rowGet r0 c)).map Prod.fst = ks
  rw [List.map_map]
  have h1 : List.map (Prod.fst ∘ fun c => (c, rowGet r0 c)) ks = List.map id ks :=
    List.map_congr_left (fun c _ => rfl)
  rw [h1, List.map_id]

theorem wf_filterRows (df : DFrame) (p : Row → Bool) (hwf : df.Wf) :
    (df.filterRows p).Wf := by
  intro r hr
  exact hwf r (List.mem_of_mem_filter hr)

theorem wf_dfFromRecords (recs : List Row) : (dfFromRecords recs).Wf := by
  intro r hr
  simp only [dfFromRecords, List.mem_map] at hr
  obtain ⟨rec, _, rfl⟩ := hr
  show ((recordCols recs).map fun c => (c, rowGet rec c)).map Prod.fst = recordCols recs
  rw [List.map_map]
  have h1 : List.map (Prod.fst ∘ fun c => (c, rowGet rec c)) (recordCols recs) =
      List.map id (recordCols recs) :=
    List.map_congr_left (fun c _ => rfl)
  rw [h1, List.map_id]

/-! ## Lookup helpers -/

theorem lookup_cons_pos {β : Type} (kv : String × β) (t : List (String × β)) (k : String)
    (h : (k == kv.1) = true) : (kv :: t).lookup k = some kv.2 := by
  cases kv with
  | mk a b => simp only [List.lookup_cons, h]

theorem lookup_cons_neg {β : Type} (kv : String × β) (t : List (String × β)) (k : String)
    (h : (k == kv.1) = false) : (kv :: t).lookup k = t.lookup k := by
  cases kv with
  | mk a b => simp only [List.lookup_cons, h]

theorem lookup_rowMapVal (k : String) (f : Cell → Cell) (r : Row) :
    (rowMapVal k f r).lookup k = (r.lookup k).map f := by
  induction r with
  | nil => rfl
  | cons kv t ih =>
    show List.lookup k ((if kv.1 == k then (kv.1, f kv.2) else kv) :: rowMapVal k f t) = _
    by_cases hp : kv.1 = k
    · have hb : (kv.1 == k) = true := beq_iff_eq.mpr hp
      have hbk : (k == kv.1) = true := beq_iff_eq.mpr hp.symm
      rw [if_pos hb, lookup_cons_pos (kv.1, f kv.2) (rowMapVal k f t) k hbk,
        lookup_cons_pos kv t k hbk]
      rfl
    · have hb : ¬((kv.1 == k) = true) := fun hh => hp (beq_iff_eq.mp hh)
      have hbk : (k == kv.1) = false := beq_eq_false_iff_ne.mpr (fun he => hp he.symm)
      rw [if_neg hb, lookup_cons_neg kv (rowMapVal k f t) k hbk, lookup_cons_neg kv t k hbk]
      exact ih

theorem lookup_isSome_of_mem_keys (r : Row) (k : String)
    (h : k ∈ r.map Prod.fst) : ∃ v, r.lookup k = some v := by
  induction r with
  | nil => simp at h
  | cons kv t ih =>
    by_cases hb : (k == kv.1) = true
    · exact ⟨kv.2, lookup_cons_pos kv t k hb⟩
    · have hmem : k ∈ t.map Prod.fst := by
        simp only [List.map_cons, List.mem_cons] at h
        rcases h with h | h
        · exact absurd (beq_iff_eq.mpr h) (by simpa using hb)
        · exact h
      obtain ⟨v, hv⟩ := ih hmem
      refine ⟨v, ?_⟩
      rw [lookup_cons_neg kv t k (by simpa using hb), hv]

/-! ## Column-presence lemmas -/

theorem hasCol_setConst_self (df : DFrame) (k : String) (v : Cell) :
    (df.setConst k v).hasCol k = true := by
  show ((if df.hasCol k then df.cols else df.cols ++ [k]).any (· == k)) = true
  by_cases h : df.hasCol k
  · rw [if_pos h]
    exact h
  · rw [if_neg h]
    simp [List.any_append]

theorem hasCol_setConst_mono (df : DFrame) (k c : String) (v : Cell)
    (h : df.hasCol c = true) : (df.setConst k v).hasCol c = true := by
  show ((if df.hasCol k then df.cols else df.cols ++ [k]).any (· == c)) = true
  have h' : df.cols.any (· == c) = true := h
  by_cases hk : df.hasCol k
  · rw [if_pos hk]
    exact h'
  · rw [if_neg hk]
    simp [List.any_append, h']

theorem hasCol_setColVals_self (df : DFrame) (k : String) (vs : List Cell) :
    (df.setColVals k vs).hasCol k = true := by
  show ((if df.hasCol k then df.cols else df.cols ++ [k]).any (· == k)) = true
  by_cases h : df.hasCol k
  · rw [if_pos h]
    exact h
  · rw [if_neg h]
    simp [List.any_append]

theorem hasCol_setColVals_mono (df : DFrame) (k c : String) (vs : List Cell)
    (h : df.hasCol c = true) : (df.setColVals k vs).hasCol c = true := by
  show ((if df.hasCol k then df.cols else df.cols ++ [k]).any (· == c)) = true
  have h' : df.cols.any (· == c) = true := h
  by_cases hk : df.hasCol k
  · rw [if_pos hk]
    exact h'
  · rw [if_neg hk]
    simp [List.any_append, h']

theorem hasCol_defaultCol_self (df : DFrame) (k : String) (v : Cell) :
    (df.defaultCol k v).hasCol k = true := by
  unfold DFrame.defaultCol
  by_cases h : df.hasCol k
  · rw [if_pos h]
    exact h
  · rw [if_neg h]
    exact hasCol_setConst_self df k v

theorem hasCol_defaultCol_mono (df : DFrame) (k c : String) (v : Cell)
    (h : df.hasCol c = true) : (df.defaultCol k v).hasCol c = true := by
  unfold DFrame.defaultCol
  by_cases hk : df.hasCol k
  · rw [if_pos hk]
    exact h
  · rw [if_neg hk]
    exact hasCol_setConst_mono df k c v h

theorem hasCol_stageId_self (df : DFrame) : (stageId df).hasCol "incident_id" = true := by
  unfold stageId
  by_cases h : df.hasCol "incident_id"
  · rw [if_pos h]
    exact h
  · rw [if_neg h]
    exact hasCol_setColVals_self df "incident_id" _

theorem hasCol_stageId_mono (df : DFrame) (c : String)
    (h : df.hasCol c = true) : (stageId df).hasCol c = true := by
  unfold stageId
  by_cases hk : df.hasCol "incident_id"
  · rw [if_pos hk]
    exact h
  · rw [if_neg hk]
    exact hasCol_setColVals_mono df "incident_id" c _ h

theorem hasCol_stageSeverity (df : DFrame) (c : String) :
    (stageSeverity df).hasCol c = df.hasCol c := rfl

/-! ## Well-formedness through the normalization stages -/

theorem wf_normalizeColumns (df : DFrame) (hwf : df.Wf) : (normalizeColumns df).Wf :=
  wf_renameAll _ _ (wf_renameAll _ _ hwf)

theorem wf_stageCols (df : DFrame) (hwf : df.Wf) : (stageCols df).Wf := by
  unfold stageCols
  by_cases h : df.isEmpty
  · rw [if_pos h]
    exact hwf
  · rw [if_neg h]
    exact wf_normalizeColumns df hwf

theorem wf_stageTimestamp (df : DFrame) (hwf : df.Wf) : (stageTimestamp df).Wf := by
  unfold stageTimestamp
  by_cases h : df.hasCol "timestamp"
  · rw [if_pos h]
    exact wf_mapCol df "timestamp" parseCell hwf
  · rw [if_neg h]
    cases hf : df.cols.find? dateLikeCol with
    | none => exact hwf
    | some c => exact wf_setColVals df "timestamp" _ hwf

theorem wf_defaultCol (df : DFrame) (k : String) (v : Cell) (hwf : df.Wf) :
    (df.defaultCol k v).Wf := by
  unfold DFrame.defaultCol
  by_cases h : df.hasCol k
  · rw [if_pos h]
    exact hwf
  · rw [if_neg h]
    exact wf_setConst df k v hwf

theorem wf_stageDefaults (df : DFrame) (hwf : df.Wf) : (stageDefaults df).Wf :=
  wf_defaultCol _ _ _ (wf_defaultCol _ _ _ (wf_defaultCol _ _ _
    (wf_defaultCol _ _ _ (wf_defaultCol _ _ _ hwf))))

theorem wf_stageId (df : DFrame) (hwf : df.Wf) : (stageId df).Wf := by
  unfold stageId
  by_cases h : df.hasCol "incident_id"
  · rw [if_pos h]
    exact hwf
  · rw [if_neg h]
    exact wf_setColVals df "incident_id" _ hwf

theorem wf_normalizeTable (df : DFrame) (hwf : df.Wf) : (normalizeTable df).Wf :=
  wf_mapCol _ _ _ (wf_stageId _ (wf_stageDefaults _ (wf_stageTimestamp _ (wf_stageCols _ hwf))))

/-! ## C1 — guaranteed fields after normalization -/

theorem hasCols_stageDefaults (df : DFrame) :
    (stageDefaults df).hasCol "severity" = true ∧
    (stageDefaults df).hasCol "type" = true ∧
    (stageDefaults df).hasCol "status" = true ∧
    (stageDefaults df).hasCol "assigned_to" = true ∧
    (stageDefaults df).hasCol "asset" = true := by
  unfold stageDefaults
  refine ⟨?_, ?_, ?_, ?_, ?_⟩
  · exact hasCol_defaultCol_mono _ _ _ _ (hasCol_defaultCol_mono _ _ _ _
      (hasCol_defaultCol_mono _ _ _ _ (hasCol_defaultCol_mono _ _ _ _
        (hasCol_defaultCol_self _ _ _))))
  · exact hasCol_defaultCol_mono _ _ _ _ (hasCol_defaultCol_mono _ _ _ _
      (hasCol_defaultCol_mono _ _ _ _ (hasCol_defaultCol_self _ _ _)))
  · exact hasCol_defaultCol_mono _ _ _ _ (hasCol_defaultCol_mono _ _ _ _
      (hasCol_defaultCol_self _ _ _))
  · exact hasCol_defaultCol_mono _ _ _ _ (hasCol_defaultCol_self _ _ _)
  · exact hasCol_defaultCol_self _ _ _

/-- C1 counterexample: normalizing the single record `{"status": null}` (a
record set with a null cell and no date-like field) produces a table with no
`timestamp` column at all and a still-null `status` cell, so not every
guaranteed field is present as a column and non-null on every row. -/
theorem c1_guaranteed_fields_counterexample :
    ¬ ((normalizeRecords nullStatusRecs).hasCol "timestamp" = true ∧
       ((normalizeRecords nullStatusRecs).getCol "status").all
         (fun c => !(c == Cell.null)) = true) := by decide

/-- C1 amended: normalization always yields the guaranteed columns except
`timestamp` (which exists only when the input has a timestamp or date-like
field); a guaranteed column absent from the input is created filled with its
non-null default, and the severity column is stringified so it is non-null in
every row, but null cells already present in an input column other than
severity are preserved rather than replaced. -/
theorem hasCol_fun_stageSeverity (df : DFrame) : (stageSeverity df).hasCol = df.hasCol := rfl

theorem c1_guaranteed_fields_amended (recs : List Row) :
    (["severity", "type", "status", "assigned_to", "asset", "incident_id"].all
        (normalizeRecords recs).hasCol = true) ∧
    ((normalizeRecords recs).getCol "severity").all (fun c => !(c == Cell.null)) = true := by
  have hdef := hasCols_stageDefaults (stageTimestamp (stageCols (dfFromRecords recs)))
  constructor
  · unfold normalizeRecords normalizeTable
    rw [hasCol_fun_stageSeverity]
    simp only [List.all_cons, List.all_nil, Bool.and_eq_true]
    refine ⟨?_, ?_, ?_, ?_, ?_, ?_, trivial⟩
    · exact hasCol_stageId_mono _ _ hdef.1
    · exact hasCol_stageId_mono _ _ hdef.2.1
    · exact hasCol_stageId_mono _ _ hdef.2.2.1
    · exact hasCol_stageId_mono _ _ hdef.2.2.2.1
    · exact hasCol_stageId_mono _ _ hdef.2.2.2.2
    · exact hasCol_stageId_self _
  · unfold normalizeRecords normalizeTable
    rw [List.all_eq_true]
    intro c hc
    have hwf6 : (stageId (stageDefaults (stageTimestamp (stageCols (dfFromRecords recs))))).Wf :=
      wf_stageId _ (wf_stageDefaults _ (wf_stageTimestamp _ (wf_stageCols _
        (wf_dfFromRecords recs))))
    have hsev : (stageId (stageDefaults (stageTimestamp (stageCols
        (dfFromRecords recs))))).hasCol "severity" = true :=
      hasCol_stageId_mono _ _ hdef.1
    simp only [stageSeverity, DFrame.mapCol, DFrame.getCol, List.map_map,
      List.mem_map, Function.comp] at hc
    obtain ⟨r0, hr0, rfl⟩ := hc
    have hkeys : "severity" ∈ r0.map Prod.fst := by
      rw [hwf6 r0 hr0]
      exact (hasCol_iff_mem _ _).mp hsev
    obtain ⟨v, hv⟩ := lookup_isSome_of_mem_keys r0 "severity" hkeys
    rw [rowGet, lookup_rowMapVal, hv]
    simp [sevCoerce]

/-! ## Payload lookup lemmas -/

theorem exists_key_of_lookup {β : Type} (l : List (String × β)) (k : String) (v : β)
    (h : l.lookup k = some v) : ∃ a, (a, v) ∈ l := by
  induction l with
  | nil => simp at h
  | cons kv t ih =>
    by_cases hb : (k == kv.1) = true
    · rw [lookup_cons_pos kv t k hb] at h
      exact ⟨kv.1, by simp [← Option.some.inj h]⟩
    · rw [lookup_cons_neg kv t k (by simpa using hb)] at h
      obtain ⟨a, ha⟩ := ih h
      exact ⟨a, List.mem_cons_of_mem kv ha⟩

theorem lookup_convertKVs (l : List (String × PyVal)) (k : String) :
    (convertKVs l).lookup k = (l.lookup k).map convertTypesForJson := by
  induction l with
  | nil => rfl
  | cons kv t ih =>
    show ((kv.1, convertTypesForJson kv.2) :: convertKVs t).lookup k = _
    by_cases hb : (k == kv.1) = true
    · rw [lookup_cons_pos (kv.1, convertTypesForJson kv.2) _ k hb, lookup_cons_pos kv t k hb]
      rfl
    · rw [lookup_cons_neg (kv.1, convertTypesForJson kv.2) _ k (by simpa using hb),
        lookup_cons_neg kv t k (by simpa using hb)]
      exact ih

theorem lookup_map_values {β γ : Type} (g : β → γ) (l : List (String × β)) (k : String) :
    (l.map (fun kv => (kv.1, g kv.2))).lookup k = (l.lookup k).map g := by
  induction l with
  | nil => rfl
  | cons kv t ih =>
    show ((kv.1, g kv.2) :: t.map (fun kv => (kv.1, g kv.2))).lookup k = _
    by_cases hb : (k == kv.1) = true
    · rw [lookup_cons_pos (kv.1, g kv.2) _ k hb, lookup_cons_pos kv t k hb]
      rfl
    · rw [lookup_cons_neg (kv.1, g kv.2) _ k (by simpa using hb),
        lookup_cons_neg kv t k (by simpa using hb)]
      exact ih

theorem lookup_finalizePayload (l : List (String × PyVal)) (k : String) :
    (finalizePayload l).lookup k =
      (l.lookup k).map (fun v => if isJsonable v then v else PyVal.vStr (pyValToStr v)) := by
  unfold finalizePayload
  by_cases hall : l.all (fun kv => isJsonable kv.2) = true
  · rw [if_pos hall]
    cases h2 : l.lookup k with
    | none => rfl
    | some v =>
      obtain ⟨a, ha⟩ := exists_key_of_lookup l k v h2
      have hv : isJsonable v = true := by
        have := List.all_eq_true.mp hall (a, v) ha
        simpa using this
      simp [hv]
  · rw [if_neg hall]
    have hmap : (l.map (fun kv =>
        if isJsonable kv.2 then kv else (kv.1, PyVal.vStr (pyValToStr kv.2)))) =
        l.map (fun kv =>
          (kv.1, if isJsonable kv.2 then kv.2 else PyVal.vStr (pyValToStr kv.2))) :=
      List.map_congr_left (fun kv _ => by by_cases h : isJsonable kv.2 = true <;> simp [h])
    rw [hmap]
    exact lookup_map_values (fun v => if isJsonable v then v else PyVal.vStr (pyValToStr v)) l k

/-! ## PII cleanliness lemmas -/

theorem mem_dropped_of_pii (df : DFrame) (c : String)
    (hcol : df.hasCol c = true) (hpii : piiMatch c = true) :
    c ∈ (maskOrDropPiiCols df).2 := by
  unfold maskOrDropPiiCols
  have hmem : c ∈ df.cols.filter piiMatch :=
    List.mem_filter.mpr ⟨(hasCol_iff_mem df c).mp hcol, hpii⟩
  have hne : (df.cols.filter piiMatch).isEmpty = false := by
    cases hf : df.cols.filter piiMatch with
    | nil => rw [hf] at hmem; simp at hmem
    | cons a t => rfl
  rw [if_neg (by simp [hne])]
  exact hmem

theorem cols_maskOrDrop_clean (df : DFrame) :
    ∀ c ∈ (maskOrDropPiiCols df).1.cols, piiMatch c = false := by
  unfold maskOrDropPiiCols
  by_cases h : (df.cols.filter piiMatch).isEmpty = true
  · rw [if_pos h]
    intro c hc
    have : df.cols.filter piiMatch = [] := by
      cases hf : df.cols.filter piiMatch with
      | nil => rfl
      | cons a t => rw [hf] at h; simp [List.isEmpty] at h
    have := List.filter_eq_nil_iff.mp this c hc
    simpa using this
  · rw [if_neg h]
    intro c hc
    show piiMatch c = false
    simp only [DFrame.dropCols, List.mem_filter] at hc
    obtain ⟨hcm, hcf⟩ := hc
    by_cases hp : piiMatch c = true
    · exfalso
      have : c ∈ df.cols.filter piiMatch := List.mem_filter.mpr ⟨hcm, hp⟩
      have : (df.cols.filter piiMatch).any (· == c) = true := by
        rw [List.any_eq_true]
        exact ⟨c, this, by simp⟩
      simp [this] at hcf
    · simpa using hp

theorem wf_maskOrDrop (df : DFrame) (hwf : df.Wf) : (maskOrDropPiiCols df).1.Wf := by
  unfold maskOrDropPiiCols
  by_cases h : (df.cols.filter piiMatch).isEmpty = true
  · rw [if_pos h]
    exact hwf
  · rw [if_neg h]
    exact wf_dropCols df _ hwf

theorem cols_contextFrame_clean (df : DFrame) (ic : Option (List String)) :
    ∀ c ∈ (contextFrame df ic).cols, piiMatch c = false := by
  have hbase := cols_maskOrDrop_clean df
  cases ic with
  | none => exact hbase
  | some l =>
    simp only [contextFrame, restrictCols]
    by_cases h : l.isEmpty = true
    · rw [if_pos h]
      exact hbase
    · rw [if_neg h]
      intro c hc
      show piiMatch c = false
      simp only [DFrame.selectCols, List.mem_filter] at hc
      exact hbase c ((hasCol_iff_mem _ c).mp hc.2)

theorem wf_contextFrame (df : DFrame) (ic : Option (List String)) (hwf : df.Wf) :
    (contextFrame df ic).Wf := by
  have hbase := wf_maskOrDrop df hwf
  cases ic with
  | none => exact hbase
  | some l =>
    simp only [contextFrame, restrictCols]
    by_cases h : l.isEmpty = true
    · rw [if_pos h]
      exact hbase
    · rw [if_neg h]
      exact wf_selectCols _ _

theorem mem_insertRowDesc (r x : Row) (l : List Row) :
    x ∈ insertRowDesc r l → x = r ∨ x ∈ l := by
  induction l with
  | nil => simp [insertRowDesc]
  | cons a t ih =>
    unfold insertRowDesc
    by_cases h : tsGT a r = true
    · rw [if_pos h]
      intro hx
      rcases List.mem_cons.mp hx with hx | hx
      · exact Or.inr (hx ▸ List.mem_cons_self a t)
      · rcases ih hx with hx | hx
        · exact Or.inl hx
        · exact Or.inr (List.mem_cons_of_mem a hx)
    · rw [if_neg h]
      intro hx
      rcases List.mem_cons.mp hx with hx | hx
      · exact Or.inl hx
      · exact Or.inr hx

theorem mem_sortRowsDesc (x : Row) (l : List Row) :
    x ∈ sortRowsDesc l → x ∈ l := by
  induction l with
  | nil => simp [sortRowsDesc]
  | cons a t ih =>
    intro hx
    rcases mem_insertRowDesc a x (sortRowsDesc t) hx with hx | hx
    · exact hx ▸ List.mem_cons_self a t
    · exact List.mem_cons_of_mem a (ih hx)

theorem sampleRows_keys_clean (cf : DFrame) (n : Nat) (hwf : cf.Wf)
    (hclean : ∀ c ∈ cf.cols, piiMatch c = false) :
    ∀ w ∈ safeSampleRows cf n, ∀ kvs0, w = PyVal.vDict kvs0 →
      ∀ kv ∈ kvs0, piiMatch kv.1 = false := by
  intro w hw kvs0 hkvs kv hkv
  have hrow : ∃ r ∈ cf.rows, w = rowToDict r := by
    unfold safeSampleRows at hw
    by_cases he : cf.isEmpty = true
    · rw [if_pos he] at hw
      simp at hw
    · rw [if_neg he] at hw
      by_cases ht : cf.hasCol "timestamp" = true
      · rw [if_pos ht] at hw
        obtain ⟨r, hr, rfl⟩ := List.mem_map.mp hw
        exact ⟨r, mem_sortRowsDesc r _ (List.mem_of_mem_take hr), rfl⟩
      · rw [if_neg ht] at hw
        obtain ⟨r, hr, rfl⟩ := List.mem_map.mp hw
        exact ⟨r, List.mem_of_mem_take hr, rfl⟩
  obtain ⟨r, hr, rfl⟩ := hrow
  unfold rowToDict at hkvs
  have hkvs0 : kvs0 = r.map (fun kv => (kv.1, cellToPy kv.2)) := by
    injection hkvs with h
    exact h.symm
  subst hkvs0
  obtain ⟨kv0, hkv0, rfl⟩ := List.mem_map.mp hkv
  apply hclean
  rw [← hwf r hr]
  exact List.mem_map.mpr ⟨kv0, hkv0, rfl⟩

/-! ## Conversion-shape lemmas -/

theorem convertList_mem (l : List PyVal) (v : PyVal) (h : v ∈ convertList l) :
    ∃ w ∈ l, v = convertTypesForJson w := by
  induction l with
  | nil => simp [convertList] at h
  | cons a t ih =>
    rcases List.mem_cons.mp h with h | h
    · exact ⟨a, List.mem_cons_self a t, h⟩
    · obtain ⟨w, hw, hv⟩ := ih h
      exact ⟨w, List.mem_cons_of_mem a hw, hv⟩

theorem convert_vDict_inv (w : PyVal) (kvs : List (String × PyVal))
    (h : convertTypesForJson w = PyVal.vDict kvs) :
    ∃ kvs0, w = PyVal.vDict kvs0 ∧ kvs = convertKVs kvs0 := by
  cases w <;> simp [convertTypesForJson] at h
  case vDict l => exact ⟨l, rfl, h.symm⟩

theorem convertKVs_mem (l : List (String × PyVal)) (kv : String × PyVal)
    (h : kv ∈ convertKVs l) : ∃ kv0 ∈ l, kv.1 = kv0.1 := by
  induction l with
  | nil => simp [convertKVs] at h
  | cons a t ih =>
    rcases List.mem_cons.mp h with h | h
    · exact ⟨a, List.mem_cons_self a t, by rw [h]⟩
    · obtain ⟨kv0, hkv0, he⟩ := ih h
      exact ⟨kv0, List.mem_cons_of_mem a hkv0, he⟩

theorem convertList_vStrs (l : List String) :
    convertList (l.map PyVal.vStr) = l.map PyVal.vStr := by
  induction l with
  | nil => rfl
  | cons a t ih => simp [convertList, convertTypesForJson, ih]

theorem isJsonableList_vStrs (l : List String) :
    isJsonableList (l.map PyVal.vStr) = true := by
  induction l with
  | nil => rfl
  | cons a t ih => simp [isJsonableList, isJsonable, ih]

/-! ## C2 — `user_email` columns are scrubbed from the payload -/

/-- C2 counterexample: on a zero-row table that has a `user_email` column,
`build_ai_context` returns the early `note` payload, which carries no
`dropped_pii_columns` key at all — so the column's name is not always placed
in the payload's `dropped_pii_columns` list. -/
theorem c2_user_email_counterexample :
    emptyUserEmailDf.hasCol "user_email" = true ∧
    ((buildAiContext (some emptyUserEmailDf) none none 40 0).lookup
      "dropped_pii_columns").isNone = true := by decide

/-- C2 amended: for every non-empty input table with a `user_email` column
(and pandas-well-formed rows), the payload's `dropped_pii_columns` list
contains `user_email`, and no sample-row dict of the payload has a key that
matches any configured PII keyword (case-insensitive substring match). -/
theorem c2_user_email_scrubbed (df : DFrame) (filters : Option (List (String × PyVal)))
    (ic : Option (List String)) (n : Nat) (today : Int)
    (hwf : df.Wf) (hne : df.isEmpty = false) (hcol : df.hasCol "user_email" = true) :
    (∃ ds : List String,
      (buildAiContext (some df) filters ic n today).lookup "dropped_pii_columns" =
        some (PyVal.vList (ds.map PyVal.vStr)) ∧ "user_email" ∈ ds) ∧
    (∀ srs, (buildAiContext (some df) filters ic n today).lookup "sample_rows" =
        some (PyVal.vList srs) →
      ∀ v ∈ srs, ∀ kvs, v = PyVal.vDict kvs → ∀ kv ∈ kvs, piiMatch kv.1 = false) := by
  have hb : buildAiContext (some df) filters ic n today =
      finalizePayload (convertKVs (buildAiContextCore df filters ic n today)) := by
    show (if df.isEmpty then _ else _) = _
    rw [if_neg (by simp [hne])]
  have hDrop : (buildAiContextCore df filters ic n today).lookup "dropped_pii_columns" =
      some (PyVal.vList ((maskOrDropPiiCols df).2.map PyVal.vStr)) := rfl
  have hSamp : (buildAiContextCore df filters ic n today).lookup "sample_rows" =
      some (PyVal.vList (safeSampleRows (contextFrame df ic) n)) := rfl
  constructor
  · refine ⟨(maskOrDropPiiCols df).2, ?_,
      mem_dropped_of_pii df "user_email" hcol (by decide)⟩
    rw [hb, lookup_finalizePayload, lookup_convertKVs, hDrop]
    have hc : convertTypesForJson (PyVal.vList ((maskOrDropPiiCols df).2.map PyVal.vStr)) =
        PyVal.vList ((maskOrDropPiiCols df).2.map PyVal.vStr) := by
      show PyVal.vList (convertList _) = _
      rw [convertList_vStrs]
    have hj : isJsonable (PyVal.vList ((maskOrDropPiiCols df).2.map PyVal.vStr)) = true := by
      show isJsonableList _ = true
      exact isJsonableList_vStrs _
    simp [hc, hj]
  · intro srs hsrs v hv kvs hkvs kv hkv
    rw [hb, lookup_finalizePayload, lookup_convertKVs, hSamp] at hsrs
    have hc : convertTypesForJson (PyVal.vList (safeSampleRows (contextFrame df ic) n)) =
        PyVal.vList (convertList (safeSampleRows (contextFrame df ic) n)) := rfl
    rw [Option.map_some', hc, Option.map_some'] at hsrs
    by_cases hj : isJsonable (PyVal.vList (convertList (safeSampleRows (contextFrame df ic) n))) = true
    · rw [if_pos hj] at hsrs
      have hlist : convertList (safeSampleRows (contextFrame df ic) n) = srs := by
        have := Option.some.inj hsrs
        injection this
      rw [← hlist] at hv
      obtain ⟨w, hwmem, rfl⟩ := convertList_mem _ v hv
      obtain ⟨kvs0, rfl, rfl⟩ := convert_vDict_inv w kvs hkvs
      obtain ⟨kv0, hkv0, hfst⟩ := convertKVs_mem kvs0 kv hkv
      rw [hfst]
      exact sampleRows_keys_clean (contextFrame df ic) n
        (wf_contextFrame df ic hwf) (cols_contextFrame_clean df ic)
        (PyVal.vDict kvs0) hwmem kvs0 rfl kv0 hkv0
    · rw [if_neg hj] at hsrs
      exact absurd (Option.some.inj hsrs) (by simp)

/-- C2 witness: a one-row frame with a `user_email` column, default arguments
of the dashboard call. -/
theorem c2_user_email_scrubbed_witness :
    (userEmailDf.Wf ∧ userEmailDf.isEmpty = false ∧ userEmailDf.hasCol "user_email" = true) ∧
    ((∃ ds : List String,
      (buildAiContext (some userEmailDf) none none 10 19800).lookup "dropped_pii_columns" =
        some (PyVal.vList (ds.map PyVal.vStr)) ∧ "user_email" ∈ ds) ∧
    (∀ srs, (buildAiContext (some userEmailDf) none none 10 19800).lookup "sample_rows" =
        some (PyVal.vList srs) →
      ∀ v ∈ srs, ∀ kvs, v = PyVal.vDict kvs → ∀ kv ∈ kvs, piiMatch kv.1 = false)) :=
  ⟨⟨by decide, by decide, by decide⟩,
   c2_user_email_scrubbed userEmailDf none none 10 19800 (by decide) (by decide) (by decide)⟩

/-! ## C10 — `description` is treated as PII ("ip" substring) -/

/-- C10 counterexample: on a zero-row table that has a `description` column,
`build_ai_context` returns the early `note` payload with no
`dropped_pii_columns` key, so the column is not always placed in
`dropped_pii_columns`. -/
theorem c10_description_counterexample :
    piiMatch "description" = true ∧
    emptyDescriptionDf.hasCol "description" = true ∧
    ((buildAiContext (some emptyDescriptionDf) none none 40 0).lookup
      "dropped_pii_columns").isNone = true := by decide

/-- C10 amended: `description` contains the configured keyword `ip`, so for
every non-empty input table with a `description` column (and
pandas-well-formed rows) the payload's `dropped_pii_columns` list contains
`description` and no sample-row dict of the payload carries a
`description` key. -/
theorem c10_description_scrubbed (df : DFrame) (filters : Option (List (String × PyVal)))
    (ic : Option (List String)) (n : Nat) (today : Int)
    (hwf : df.Wf) (hne : df.isEmpty = false) (hcol : df.hasCol "description" = true) :
    (∃ ds : List String,
      (buildAiContext (some df) filters ic n today).lookup "dropped_pii_columns" =
        some (PyVal.vList (ds.map PyVal.vStr)) ∧ "description" ∈ ds) ∧
    (∀ srs, (buildAiContext (some df) filters ic n today).lookup "sample_rows" =
        some (PyVal.vList srs) →
      ∀ v ∈ srs, ∀ kvs, v = PyVal.vDict kvs → ∀ kv ∈ kvs, (kv.1 == "description") = false) := by
  have hb : buildAiContext (some df) filters ic n today =
      finalizePayload (convertKVs (buildAiContextCore df filters ic n today)) := by
    show (if df.isEmpty then _ else _) = _
    rw [if_neg (by simp [hne])]
  have hDrop : (buildAiContextCore df filters ic n today).lookup "dropped_pii_columns" =
      some (PyVal.vList ((maskOrDropPiiCols df).2.map PyVal.vStr)) := rfl
  have hSamp : (buildAiContextCore df filters ic n today).lookup "sample_rows" =
      some (PyVal.vList (safeSampleRows (contextFrame df ic) n)) := rfl
  constructor
  · refine ⟨(maskOrDropPiiCols df).2, ?_,
      mem_dropped_of_pii df "description" hcol (by decide)⟩
    rw [hb, lookup_finalizePayload, lookup_convertKVs, hDrop]
    have hc : convertTypesForJson (PyVal.vList ((maskOrDropPiiCols df).2.map PyVal.vStr)) =
        PyVal.vList ((maskOrDropPiiCols df).2.map PyVal.vStr) := by
      show PyVal.vList (convertList _) = _
      rw [convertList_vStrs]
    have hj : isJsonable (PyVal.vList ((maskOrDropPiiCols df).2.map PyVal.vStr)) = true := by
      show isJsonableList _ = true
      exact isJsonableList_vStrs _
    simp [hc, hj]
  · intro srs hsrs v hv kvs hkvs kv hkv
    rw [hb, lookup_finalizePayload, lookup_convertKVs, hSamp] at hsrs
    have hc : convertTypesForJson (PyVal.vList (safeSampleRows (contextFrame df ic) n)) =
        PyVal.vList (convertList (safeSampleRows (contextFrame df ic) n)) := rfl
    rw [Option.map_some', hc, Option.map_some'] at hsrs
    by_cases hj : isJsonable (PyVal.vList (convertList (safeSampleRows (contextFrame df ic) n))) = true
    · rw [if_pos hj] at hsrs
      have hlist : convertList (safeSampleRows (contextFrame df ic) n) = srs := by
        have := Option.some.inj hsrs
        injection this
      rw [← hlist] at hv
      obtain ⟨w, hwmem, rfl⟩ := convertList_mem _ v hv
      obtain ⟨kvs0, rfl, rfl⟩ := convert_vDict_inv w kvs hkvs
      obtain ⟨kv0, hkv0, hfst⟩ := convertKVs_mem kvs0 kv hkv
      have hclean : piiMatch kv.1 = false := by
        rw [hfst]
        exact sampleRows_keys_clean (contextFrame df ic) n
          (wf_contextFrame df ic hwf) (cols_contextFrame_clean df ic)
          (PyVal.vDict kvs0) hwmem kvs0 rfl kv0 hkv0
      apply beq_eq_false_iff_ne.mpr
      intro he
      rw [he] at hclean
      exact absurd hclean (by decide)
    · rw [if_neg hj] at hsrs
      exact absurd (Option.some.inj hsrs) (by simp)

/-- C10 witness: a one-row frame with a `description` column. -/
theorem c10_description_scrubbed_witness :
    (descriptionDf.Wf ∧ descriptionDf.isEmpty = false ∧
      descriptionDf.hasCol "description" = true) ∧
    ((∃ ds : List String,
      (buildAiContext (some descriptionDf) none none 10 19800).lookup "dropped_pii_columns" =
        some (PyVal.vList (ds.map PyVal.vStr)) ∧ "description" ∈ ds) ∧
    (∀ srs, (buildAiContext (some descriptionDf) none none 10 19800).lookup "sample_rows" =
        some (PyVal.vList srs) →
      ∀ v ∈ srs, ∀ kvs, v = PyVal.vDict kvs → ∀ kv ∈ kvs, (kv.1 == "description") = false)) :=
  ⟨⟨by decide, by decide, by decide⟩,
   c10_description_scrubbed descriptionDf none none 10 19800 (by decide) (by decide) (by decide)⟩

/-! ## Character lemmas for idempotence -/

theorem ofNat_toNat_shift (n : Nat) (h1 : 65 ≤ n) (h2 : n ≤ 90) :
    (Char.ofNat (n + 32)).toNat = n + 32 := by
  interval_cases n <;> decide

theorem isWhitespace_eq_false_of_toNat (c : Char) (h : 33 ≤ c.toNat) :
    c.isWhitespace = false := by
  have h1 : c ≠ ' ' := fun he => by rw [he] at h; exact absurd h (by decide)
  have h2 : c ≠ '\t' := fun he => by rw [he] at h; exact absurd h (by decide)
  have h3 : c ≠ '\r' := fun he => by rw [he] at h; exact absurd h (by decide)
  have h4 : c ≠ '\n' := fun he => by rw [he] at h; exact absurd h (by decide)
  simp [Char.isWhitespace, h1, h2, h3, h4]

theorem ne_space_of_toNat (c : Char) (h : 33 ≤ c.toNat) : c ≠ ' ' :=
  fun he => by rw [he] at h; exact absurd h (by decide)

theorem charLower_idem (c : Char) : charLower (charLower c) = charLower c := by
  unfold charLower
  by_cases h : 65 ≤ c.toNat ∧ c.toNat ≤ 90
  · rw [if_pos h]
    have ht := ofNat_toNat_shift c.toNat h.1 h.2
    rw [if_neg (by omega)]
  · rw [if_neg h, if_neg h]

theorem charLower_toNat_big (c : Char) (h : 65 ≤ c.toNat ∧ c.toNat ≤ 90) :
    (charLower c).toNat = c.toNat + 32 := by
  unfold charLower
  rw [if_pos h]
  exact ofNat_toNat_shift c.toNat h.1 h.2

theorem charLower_ne_space (c : Char) (h : c ≠ ' ') : charLower c ≠ ' ' := by
  unfold charLower
  by_cases hb : 65 ≤ c.toNat ∧ c.toNat ≤ 90
  · rw [if_pos hb]
    exact ne_space_of_toNat _ (by rw [ofNat_toNat_shift c.toNat hb.1 hb.2]; omega)
  · rw [if_neg hb]
    exact h

theorem charLower_nonws (c : Char) (h : c.isWhitespace = false) :
    (charLower c).isWhitespace = false := by
  unfold charLower
  by_cases hb : 65 ≤ c.toNat ∧ c.toNat ≤ 90
  · rw [if_pos hb]
    exact isWhitespace_eq_false_of_toNat _ (by rw [ofNat_toNat_shift c.toNat hb.1 hb.2]; omega)
  · rw [if_neg hb]
    exact h

theorem spaceToUnderscore_nonws (c : Char) (h : c.isWhitespace = false) :
    (spaceToUnderscore c).isWhitespace = false := by
  unfold spaceToUnderscore
  by_cases hs : c = ' '
  · rw [if_pos hs]
    decide
  · rw [if_neg hs]
    exact h

theorem g2_idem (c : Char) :
    spaceToUnderscore (charLower (spaceToUnderscore (charLower c))) =
      spaceToUnderscore (charLower c) := by
  by_cases hs : c = ' '
  · subst hs
    decide
  · have h1 : charLower c ≠ ' ' := charLower_ne_space c hs
    unfold spaceToUnderscore
    rw [if_neg h1, charLower_idem, if_neg h1]

theorem g2_nonws (c : Char) (h : c.isWhitespace = false) :
    (spaceToUnderscore (charLower c)).isWhitespace = false :=
  spaceToUnderscore_nonws _ (charLower_nonws c h)

/-! ## Strip lemmas -/

theorem head?_dropWhile (p : Char → Bool) (l : List Char) :
    ∀ a, (l.dropWhile p).head? = some a → p a = false := by
  induction l with
  | nil => intro a ha; simp at ha
  | cons b t ih =>
    intro a ha
    by_cases hb : p b = true
    · rw [List.dropWhile_cons_of_pos hb] at ha
      exact ih a ha
    · rw [List.dropWhile_cons_of_neg hb] at ha
      have : b = a := by injection ha
      rw [← this]
      simpa using hb

theorem getLast?_dropWhile (p : Char → Bool) (l : List Char)
    (h : l.dropWhile p ≠ []) : (l.dropWhile p).getLast? = l.getLast? := by
  induction l with
  | nil => simp at h
  | cons b t ih =>
    by_cases hb : p b = true
    · rw [List.dropWhile_cons_of_pos hb] at h ⊢
      rw [ih h]
      cases t with
      | nil =>
        rw [List.dropWhile_nil] at h
        exact absurd rfl h
      | cons c t2 => rw [List.getLast?_cons_cons]
    · rw [List.dropWhile_cons_of_neg hb]

theorem dropWhile_eq_self_of_head (p : Char → Bool) (l : List Char)
    (h : ∀ a, l.head? = some a → p a = false) : l.dropWhile p = l := by
  cases l with
  | nil => rfl
  | cons b t =>
    have hb := h b rfl
    rw [List.dropWhile_cons_of_neg (by simp [hb])]

theorem stripChars_head (l : List Char) :
    ∀ a, (stripChars l).head? = some a → a.isWhitespace = false := by
  intro a ha
  unfold stripChars at ha
  rw [List.head?_reverse] at ha
  by_cases hd : ((l.dropWhile Char.isWhitespace).reverse.dropWhile Char.isWhitespace) = []
  · rw [hd] at ha
    simp at ha
  · rw [getLast?_dropWhile _ _ hd, List.getLast?_reverse] at ha
    exact head?_dropWhile _ _ a ha

theorem stripChars_last (l : List Char) :
    ∀ a, (stripChars l).getLast? = some a → a.isWhitespace = false := by
  intro a ha
  unfold stripChars at ha
  rw [List.getLast?_reverse] at ha
  exact head?_dropWhile _ _ a ha

theorem stripChars_of_clean (l : List Char)
    (hh : ∀ a, l.head? = some a → a.isWhitespace = false)
    (hl : ∀ a, l.getLast? = some a → a.isWhitespace = false) : stripChars l = l := by
  unfold stripChars
  rw [dropWhile_eq_self_of_head _ l hh]
  have hrev : ∀ a, l.reverse.head? = some a → a.isWhitespace = false := by
    intro a ha
    rw [List.head?_reverse] at ha
    exact hl a ha
  rw [dropWhile_eq_self_of_head _ l.reverse hrev, List.reverse_reverse]

theorem mem_stripChars (l : List Char) (a : Char) (h : a ∈ stripChars l) : a ∈ l := by
  unfold stripChars at h
  rw [List.mem_reverse] at h
  have h2 := List.dropWhile_subset Char.isWhitespace h
  rw [List.mem_reverse] at h2
  exact List.dropWhile_subset Char.isWhitespace h2

theorem head?_map_clean (g : Char → Char) (l : List Char)
    (hg : ∀ a, a.isWhitespace = false → (g a).isWhitespace = false)
    (hh : ∀ a, l.head? = some a → a.isWhitespace = false) :
    ∀ a, (l.map g).head? = some a → a.isWhitespace = false := by
  intro a ha
  cases l with
  | nil => simp at ha
  | cons b t =>
    have : g b = a := by
      rw [List.map_cons] at ha
      injection ha
    rw [← this]
    exact hg b (hh b rfl)

theorem getLast?_map_clean (g : Char → Char) (l : List Char)
    (hg : ∀ a, a.isWhitespace = false → (g a).isWhitespace = false)
    (hl : ∀ a, l.getLast? = some a → a.isWhitespace = false) :
    ∀ a, (l.map g).getLast? = some a → a.isWhitespace = false := by
  intro a ha
  rw [List.getLast?_eq_head?_reverse, ← List.map_reverse] at ha
  refine head?_map_clean g l.reverse hg ?_ a ha
  intro b hb
  rw [List.head?_reverse] at hb
  exact hl b hb

/-! ## Idempotence of the canonical string operations -/

theorem canon_data (s : String) :
    (canonName s).data = ((stripChars s.data).map charLower).map spaceToUnderscore := rfl

theorem canonName_idem (s : String) : canonName (canonName s) = canonName s := by
  apply String.ext
  rw [canon_data, canon_data]
  have hclean : stripChars (((stripChars s.data).map charLower).map spaceToUnderscore) =
      ((stripChars s.data).map charLower).map spaceToUnderscore := by
    apply stripChars_of_clean
    · exact head?_map_clean _ _ (fun a ha => spaceToUnderscore_nonws a ha)
        (head?_map_clean _ _ (fun a ha => charLower_nonws a ha) (stripChars_head s.data))
    · exact getLast?_map_clean _ _ (fun a ha => spaceToUnderscore_nonws a ha)
        (getLast?_map_clean _ _ (fun a ha => charLower_nonws a ha) (stripChars_last s.data))
  rw [hclean, List.map_map, List.map_map, List.map_map, List.map_map]
  refine List.map_congr_left ?_
  intro a _
  exact g2_idem a

theorem sev_data (s : String) :
    (pyStrip (pyLower s)).data = stripChars (s.data.map charLower) := rfl

theorem sevstr_idem (s : String) :
    pyStrip (pyLower (pyStrip (pyLower s))) = pyStrip (pyLower s) := by
  apply String.ext
  rw [sev_data]
  show stripChars ((stripChars (s.data.map charLower)).map charLower) = _
  have hfix : (stripChars (s.data.map charLower)).map charLower =
      stripChars (s.data.map charLower) := by
    have h1 : (stripChars (s.data.map charLower)).map charLower =
        (stripChars (s.data.map charLower)).map id := by
      refine List.map_congr_left ?_
      intro a ha
      obtain ⟨b, _, rfl⟩ := List.mem_map.mp (mem_stripChars _ a ha)
      exact charLower_idem b
    rw [h1, List.map_id]
  rw [hfix, sev_data]
  exact stripChars_of_clean _ (stripChars_head _) (stripChars_last _)

theorem sevCoerce_idem (c : Cell) : sevCoerce (sevCoerce c) = sevCoerce c := by
  show Cell.str (pyStrip (pyLower (pyStrip (pyLower (cellToStr c))))) = _
  rw [sevstr_idem]
  rfl

theorem parseCell_idem (c : Cell) : parseCell (parseCell c) = parseCell c := by
  cases c with
  | null => rfl
  | int n => rfl
  | date d => rfl
  | str s =>
    show parseCell (parseCell (Cell.str s)) = parseCell (Cell.str s)
    cases h : parseDateStr s with
    | none => simp [parseCell, h]
    | some d => simp [parseCell, h]

/-! ## Frame identity lemmas -/

theorem renameAll_id_of (df : DFrame) (f : String → String)
    (h : ∀ c ∈ df.cols, f c = c) (hwf : df.Wf) : df.renameAll f = df := by
  unfold DFrame.renameAll
  have hcols : df.cols.map f = df.cols := by
    have h1 : df.cols.map f = df.cols.map id := List.map_congr_left h
    rw [h1, List.map_id]
  have hrows : df.rows.map (·.map (fun kv => (f kv.1, kv.2))) = df.rows := by
    have h1 : df.rows.map (·.map (fun kv => (f kv.1, kv.2))) = df.rows.map id := by
      refine List.map_congr_left ?_
      intro r hr
      show r.map (fun kv => (f kv.1, kv.2)) = r
      have h2 : r.map (fun kv => (f kv.1, kv.2)) = r.map id := by
        refine List.map_congr_left ?_
        intro kv hkv
        have : kv.1 ∈ df.cols := by
          rw [← hwf r hr]
          exact List.mem_map.mpr ⟨kv, hkv, rfl⟩
        show (f kv.1, kv.2) = kv
        rw [h kv.1 this]
      rw [h2, List.map_id]
    rw [h1, List.map_id]
  rw [hcols, hrows]

theorem mapCol_eq_self (df : DFrame) (k : String) (f : Cell → Cell)
    (h : ∀ r ∈ df.rows, ∀ kv ∈ r, kv.1 = k → f kv.2 = kv.2) : df.mapCol k f = df := by
  unfold DFrame.mapCol
  have hrows : df.rows.map (rowMapVal k f) = df.rows := by
    have h1 : df.rows.map (rowMapVal k f) = df.rows.map id := by
      refine List.map_congr_left ?_
      intro r hr
      show rowMapVal k f r = r
      unfold rowMapVal
      have h2 : r.map (fun kv => if kv.1 == k then (kv.1, f kv.2) else kv) = r.map id := by
        refine List.map_congr_left ?_
        intro kv hkv
        by_cases hb : (kv.1 == k) = true
        · have he : kv.1 = k := beq_iff_eq.mp hb
          rw [if_pos hb]
          show (kv.1, f kv.2) = kv
          rw [h r hr kv hkv he]
        · rw [if_neg hb]
          rfl
      rw [h2, List.map_id]
    rw [h1, List.map_id]
  rw [hrows]

/-! ## Column-membership inversion lemmas -/

theorem hasCol_setConst_inv (df : DFrame) (k c : String) (v : Cell)
    (h : (df.setConst k v).hasCol c = true) : df.hasCol c = true ∨ c = k := by
  revert h
  show ((if df.hasCol k then df.cols else df.cols ++ [k]).any (· == c)) = true → _
  by_cases hk : df.hasCol k
  · rw [if_pos hk]
    exact Or.inl
  · rw [if_neg hk]
    intro h
    rw [List.any_append] at h
    rcases Bool.or_eq_true_iff.mp h with h | h
    · exact Or.inl h
    · right
      simp at h
      exact h.symm

theorem hasCol_setColVals_inv (df : DFrame) (k c : String) (vs : List Cell)
    (h : (df.setColVals k vs).hasCol c = true) : df.hasCol c = true ∨ c = k := by
  revert h
  show ((if df.hasCol k then df.cols else df.cols ++ [k]).any (· == c)) = true → _
  by_cases hk : df.hasCol k
  · rw [if_pos hk]
    exact Or.inl
  · rw [if_neg hk]
    intro h
    rw [List.any_append] at h
    rcases Bool.or_eq_true_iff.mp h with h | h
    · exact Or.inl h
    · right
      simp at h
      exact h.symm

theorem hasCol_defaultCol_inv (df : DFrame) (k c : String) (v : Cell)
    (h : (df.defaultCol k v).hasCol c = true) : df.hasCol c = true ∨ c = k := by
  unfold DFrame.defaultCol at h
  by_cases hk : df.hasCol k
  · rw [if_pos hk] at h
    exact Or.inl h
  · rw [if_neg hk] at h
    exact hasCol_setConst_inv df k c v h

theorem hasCol_stageId_inv (df : DFrame) (c : String)
    (h : (stageId df).hasCol c = true) : df.hasCol c = true ∨ c = "incident_id" := by
  unfold stageId at h
  by_cases hk : df.hasCol "incident_id"
  · rw [if_pos hk] at h
    exact Or.inl h
  · rw [if_neg hk] at h
    exact hasCol_setColVals_inv df "incident_id" c _ h

theorem hasCol_stageDefaults_inv (df : DFrame) (c : String)
    (h : (stageDefaults df).hasCol c = true) :
    df.hasCol c = true ∨ c ∈ ["severity", "type", "status", "assigned_to", "asset"] := by
  unfold stageDefaults at h
  rcases hasCol_defaultCol_inv _ _ _ _ h with h | h
  · rcases hasCol_defaultCol_inv _ _ _ _ h with h | h
    · rcases hasCol_defaultCol_inv _ _ _ _ h with h | h
      · rcases hasCol_defaultCol_inv _ _ _ _ h with h | h
        · rcases hasCol_defaultCol_inv _ _ _ _ h with h | h
          · exact Or.inl h
          · exact Or.inr (by simp [h])
        · exact Or.inr (by simp [h])
      · exact Or.inr (by simp [h])
    · exact Or.inr (by simp [h])
  · exact Or.inr (by simp [h])

/-! ## Synonym-map structure -/

theorem mem_ite_or {α : Type} (c : Prop) [Decidable c] (l1 l2 : List α) (a : α)
    (h : a ∈ if c then l1 else l2) : a ∈ l1 ∨ a ∈ l2 := by
  by_cases hc : c
  · rw [if_pos hc] at h
    exact Or.inl h
  · rw [if_neg hc] at h
    exact Or.inr h

theorem synonymMap_shape (cols : List String) (p : String × String)
    (hp : p ∈ synonymMap cols) :
    p = ("id", "incident_id") ∨ p = ("date", "timestamp") ∨ p = ("level", "severity") ∨
    p = ("priority", "severity") ∨ p = ("category", "type") ∨ p = ("threat_type", "type") ∨
    p = ("state", "status") ∨ p = ("assignee", "assigned_to") ∨
    p = ("affected_asset", "asset") := by
  unfold synonymMap at hp
  rcases List.mem_append.mp hp with hp | hp
  rotate_left
  · rcases mem_ite_or _ _ _ _ hp with hp | hp
    · exact Or.inr (Or.inr (Or.inr (Or.inr (Or.inr (Or.inr (Or.inr (Or.inr
        (List.mem_singleton.mp hp))))))))
    · simp at hp
  rcases List.mem_append.mp hp with hp | hp
  rotate_left
  · rcases mem_ite_or _ _ _ _ hp with hp | hp
    · exact Or.inr (Or.inr (Or.inr (Or.inr (Or.inr (Or.inr (Or.inr (Or.inl
        (List.mem_singleton.mp hp))))))))
    · simp at hp
  rcases List.mem_append.mp hp with hp | hp
  rotate_left
  · rcases mem_ite_or _ _ _ _ hp with hp | hp
    · exact Or.inr (Or.inr (Or.inr (Or.inr (Or.inr (Or.inr (Or.inl
        (List.mem_singleton.mp hp)))))))
    · simp at hp
  rcases List.mem_append.mp hp with hp | hp
  rotate_left
  · rcases mem_ite_or _ _ _ _ hp with hp | hp
    · rcases mem_ite_or _ _ _ _ hp with hp | hp
      · exact Or.inr (Or.inr (Or.inr (Or.inr (Or.inl (List.mem_singleton.mp hp)))))
      · rcases mem_ite_or _ _ _ _ hp with hp | hp
        · exact Or.inr (Or.inr (Or.inr (Or.inr (Or.inr (Or.inl
            (List.mem_singleton.mp hp))))))
        · simp at hp
    · simp at hp
  rcases List.mem_append.mp hp with hp | hp
  rotate_left
  · rcases mem_ite_or _ _ _ _ hp with hp | hp
    · rcases mem_ite_or _ _ _ _ hp with hp | hp
      · exact Or.inr (Or.inr (Or.inl (List.mem_singleton.mp hp)))
      · rcases mem_ite_or _ _ _ _ hp with hp | hp
        · exact Or.inr (Or.inr (Or.inr (Or.inl (List.mem_singleton.mp hp))))
        · simp at hp
    · simp at hp
  rcases List.mem_append.mp hp with hp | hp
  rotate_left
  · rcases mem_ite_or _ _ _ _ hp with hp | hp
    · exact Or.inr (Or.inl (List.mem_singleton.mp hp))
    · simp at hp
  · rcases mem_ite_or _ _ _ _ hp with hp | hp
    · exact Or.inl (List.mem_singleton.mp hp)
    · simp at hp

theorem lookup_mem_self {β : Type} (l : List (String × β)) (k : String) (v : β)
    (h : l.lookup k = some v) : (k, v) ∈ l := by
  induction l with
  | nil => simp at h
  | cons kv t ih =>
    by_cases hb : (k == kv.1) = true
    · rw [lookup_cons_pos kv t k hb] at h
      have hv : v = kv.2 := (Option.some.inj h).symm
      have hk : k = kv.1 := beq_iff_eq.mp hb
      rw [hv, hk]
      exact List.mem_cons_self kv t
    · rw [lookup_cons_neg kv t k (by simpa using hb)] at h
      exact List.mem_cons_of_mem kv (ih h)

theorem lookup_eq_none_of_no_key {β : Type} (l : List (String × β)) (k : String)
    (h : ∀ p ∈ l, (k == p.1) = false) : l.lookup k = none := by
  induction l with
  | nil => rfl
  | cons kv t ih =>
    rw [lookup_cons_neg kv t k (h kv (List.mem_cons_self kv t))]
    exact ih (fun p hp => h p (List.mem_cons_of_mem kv hp))

theorem lookup_none_no_key {β : Type} (l : List (String × β)) (k : String)
    (h : l.lookup k = none) : ∀ p ∈ l, (k == p.1) = false := by
  induction l with
  | nil => intro p hp; simp at hp
  | cons kv t ih =>
    intro p hp
    by_cases hb : (k == kv.1) = true
    · rw [lookup_cons_pos kv t k hb] at h
      simp at h
    · rcases List.mem_cons.mp hp with hp | hp
      · rw [hp]
        simpa using hb
      · exact ih (by rwa [lookup_cons_neg kv t k (by simpa using hb)] at h) p hp

/-! ## Canonical column names through the stages -/

theorem dfFromRecords_isEmpty_cols (recs : List Row)
    (h : (dfFromRecords recs).isEmpty = true) : (dfFromRecords recs).cols = [] := by
  unfold DFrame.isEmpty at h
  rcases Bool.or_eq_true_iff.mp h with h | h
  · have hrows : (dfFromRecords recs).rows = [] := List.isEmpty_iff.mp h
    have hrecs : recs = [] := by
      have : recs.map _ = ([] : List Row) := hrows
      exact List.map_eq_nil_iff.mp this
    rw [hrecs]
    rfl
  · exact List.isEmpty_iff.mp h

theorem canonCols_normalizeColumns (df : DFrame) :
    ∀ c, (normalizeColumns df).hasCol c = true → canonName c = c := by
  intro c hc
  unfold normalizeColumns at hc
  have hmem := (hasCol_iff_mem _ c).mp hc
  show canonName c = c
  simp only [DFrame.renameAll, List.map_map, List.mem_map] at hmem
  obtain ⟨c0, _, rfl⟩ := hmem
  set m := synonymMap ((df.renameAll canonName).cols) with hm
  show canonName ((m.lookup (canonName c0)).getD (canonName c0)) =
    (m.lookup (canonName c0)).getD (canonName c0)
  cases hl : m.lookup (canonName c0) with
  | none =>
    show canonName (canonName c0) = canonName c0
    exact canonName_idem c0
  | some tgt =>
    show canonName tgt = tgt
    have hpm := lookup_mem_self m (canonName c0) tgt hl
    rcases synonymMap_shape _ _ hpm with h | h | h | h | h | h | h | h | h
    all_goals have h2 := congrArg Prod.snd h
    all_goals simp at h2
    all_goals rw [h2]
    all_goals decide

theorem canonCols_stageCols (recs : List Row) :
    ∀ c, (stageCols (dfFromRecords recs)).hasCol c = true → canonName c = c := by
  intro c hc
  unfold stageCols at hc
  by_cases he : (dfFromRecords recs).isEmpty = true
  · rw [if_pos he] at hc
    have := dfFromRecords_isEmpty_cols recs he
    unfold DFrame.hasCol at hc
    rw [this] at hc
    simp at hc
  · rw [if_neg he] at hc
    exact canonCols_normalizeColumns _ c hc

theorem canonCols_stageTimestamp (df : DFrame)
    (h : ∀ c, df.hasCol c = true → canonName c = c) :
    ∀ c, (stageTimestamp df).hasCol c = true → canonName c = c := by
  intro c hc
  unfold stageTimestamp at hc
  by_cases ht : df.hasCol "timestamp"
  · rw [if_pos ht] at hc
    exact h c hc
  · rw [if_neg ht] at hc
    cases hf : df.cols.find? dateLikeCol with
    | none =>
      rw [hf] at hc
      exact h c hc
    | some c0 =>
      rw [hf] at hc
      rcases hasCol_setColVals_inv _ _ _ _ hc with hc | hc
      · exact h c hc
      · rw [hc]
        decide

theorem canonCols_stageDefaults (df : DFrame)
    (h : ∀ c, df.hasCol c = true → canonName c = c) :
    ∀ c, (stageDefaults df).hasCol c = true → canonName c = c := by
  intro c hc
  rcases hasCol_stageDefaults_inv df c hc with hc | hc
  · exact h c hc
  · simp only [List.mem_cons, List.not_mem_nil, or_false] at hc
    rcases hc with hc | hc | hc | hc | hc <;> (rw [hc]; decide)

theorem canonCols_stageId (df : DFrame)
    (h : ∀ c, df.hasCol c = true → canonName c = c) :
    ∀ c, (stageId df).hasCol c = true → canonName c = c := by
  intro c hc
  rcases hasCol_stageId_inv df c hc with hc | hc
  · exact h c hc
  · rw [hc]
    decide

/-! ## The timestamp-availability invariant -/

theorem q_stageTimestamp (df : DFrame) :
    (stageTimestamp df).hasCol "timestamp" = true ∨
      ∀ c, (stageTimestamp df).hasCol c = true → dateLikeCol c = false := by
  unfold stageTimestamp
  by_cases ht : df.hasCol "timestamp"
  · rw [if_pos ht]
    exact Or.inl ht
  · rw [if_neg ht]
    cases hf : df.cols.find? dateLikeCol with
    | none =>
      right
      intro c hc
      have := List.find?_eq_none.mp hf c ((hasCol_iff_mem df c).mp hc)
      simpa using this
    | some c0 =>
      exact Or.inl (hasCol_setColVals_self df "timestamp" _)

theorem q_stageDefaults (df : DFrame)
    (h : df.hasCol "timestamp" = true ∨ ∀ c, df.hasCol c = true → dateLikeCol c = false) :
    (stageDefaults df).hasCol "timestamp" = true ∨
      ∀ c, (stageDefaults df).hasCol c = true → dateLikeCol c = false := by
  rcases h with h | h
  · left
    unfold stageDefaults
    exact hasCol_defaultCol_mono _ _ _ _ (hasCol_defaultCol_mono _ _ _ _
      (hasCol_defaultCol_mono _ _ _ _ (hasCol_defaultCol_mono _ _ _ _
        (hasCol_defaultCol_mono _ _ _ _ h))))
  · right
    intro c hc
    rcases hasCol_stageDefaults_inv df c hc with hc | hc
    · exact h c hc
    · simp only [List.mem_cons, List.not_mem_nil, or_false] at hc
      rcases hc with hc | hc | hc | hc | hc <;> (rw [hc]; decide)

theorem q_stageId (df : DFrame)
    (h : df.hasCol "timestamp" = true ∨ ∀ c, df.hasCol c = true → dateLikeCol c = false) :
    (stageId df).hasCol "timestamp" = true ∨
      ∀ c, (stageId df).hasCol c = true → dateLikeCol c = false := by
  rcases h with h | h
  · exact Or.inl (hasCol_stageId_mono df _ h)
  · right
    intro c hc
    rcases hasCol_stageId_inv df c hc with hc | hc
    · exact h c hc
    · rw [hc]
      decide

/-! ## Value-level fixed-point invariants -/

theorem mem_rowSet_cases (r : Row) (k : String) (v : Cell) (kv : String × Cell)
    (h : kv ∈ rowSet r k v) : kv ∈ r ∨ kv = (k, v) := by
  unfold rowSet at h
  by_cases hk : rowHasKey r k
  · rw [if_pos hk] at h
    obtain ⟨kv0, hkv0, he⟩ := List.mem_map.mp h
    by_cases hb : (kv0.1 == k) = true
    · rw [if_pos hb] at he
      exact Or.inr he.symm
    · rw [if_neg hb] at he
      exact Or.inl (he ▸ hkv0)
  · rw [if_neg hk] at h
    rcases List.mem_append.mp h with h | h
    · exact Or.inl h
    · exact Or.inr (List.mem_singleton.mp h)

theorem mem_rowMapVal_cases (r : Row) (k : String) (f : Cell → Cell) (kv : String × Cell)
    (h : kv ∈ rowMapVal k f r) :
    (∃ kv0 ∈ r, kv0.1 = k ∧ kv = (kv0.1, f kv0.2)) ∨ (kv ∈ r ∧ ¬ kv.1 = k) := by
  unfold rowMapVal at h
  obtain ⟨kv0, hkv0, he⟩ := List.mem_map.mp h
  by_cases hb : (kv0.1 == k) = true
  · rw [if_pos hb] at he
    exact Or.inl ⟨kv0, hkv0, beq_iff_eq.mp hb, he.symm⟩
  · rw [if_neg hb] at he
    right
    refine ⟨he ▸ hkv0, ?_⟩
    rw [← he]
    exact fun hc => hb (beq_iff_eq.mpr hc)

theorem t_stageTimestamp (df : DFrame) (hwf : df.Wf) :
    ∀ r ∈ (stageTimestamp df).rows, ∀ kv ∈ r, kv.1 = "timestamp" →
      parseCell kv.2 = kv.2 := by
  unfold stageTimestamp
  by_cases ht : df.hasCol "timestamp"
  · rw [if_pos ht]
    intro r hr kv hkv hk1
    obtain ⟨r0, hr0, rfl⟩ := List.mem_map.mp hr
    rcases mem_rowMapVal_cases r0 _ _ kv hkv with ⟨kv0, _, _, rfl⟩ | ⟨_, hne⟩
    · exact parseCell_idem kv0.2
    · exact absurd hk1 hne
  · rw [if_neg ht]
    cases hf : df.cols.find? dateLikeCol with
    | none =>
      intro r hr kv hkv hk1
      exfalso
      apply ht
      have hr2 : r ∈ df.rows := hr
      rw [hasCol_iff_mem, ← hwf r hr2]
      exact List.mem_map.mpr ⟨kv, hkv, hk1⟩
    | some c0 =>
      intro r hr kv hkv hk1
      obtain ⟨rv, hrv, rfl⟩ := List.mem_map.mp hr
      rcases mem_rowSet_cases rv.1 _ _ kv hkv with hin | heq
      · exfalso
        apply ht
        have hr0 : rv.1 ∈ df.rows := (List.of_mem_zip hrv).1
        rw [hasCol_iff_mem, ← hwf rv.1 hr0]
        exact List.mem_map.mpr ⟨kv, hin, hk1⟩
      · have hv2 : rv.2 ∈ (df.getCol c0).map parseCell := (List.of_mem_zip hrv).2
        obtain ⟨w, _, hw⟩ := List.mem_map.mp hv2
        rw [heq]
        show parseCell rv.2 = rv.2
        rw [← hw, parseCell_idem]

theorem t_setConst (df : DFrame) (k : String) (v : Cell)
    (hk : ¬ ("timestamp" : String) = k)
    (htf : ∀ r ∈ df.rows, ∀ kv ∈ r, kv.1 = "timestamp" → parseCell kv.2 = kv.2) :
    ∀ r ∈ (df.setConst k v).rows, ∀ kv ∈ r, kv.1 = "timestamp" →
      parseCell kv.2 = kv.2 := by
  intro r hr kv hkv hk1
  obtain ⟨r0, hr0, rfl⟩ := List.mem_map.mp hr
  rcases mem_rowSet_cases r0 k v kv hkv with hin | heq
  · exact htf r0 hr0 kv hin hk1
  · exfalso
    apply hk
    rw [← hk1, heq]

theorem t_setColVals (df : DFrame) (k : String) (vs : List Cell)
    (hk : ¬ ("timestamp" : String) = k)
    (htf : ∀ r ∈ df.rows, ∀ kv ∈ r, kv.1 = "timestamp" → parseCell kv.2 = kv.2) :
    ∀ r ∈ (df.setColVals k vs).rows, ∀ kv ∈ r, kv.1 = "timestamp" →
      parseCell kv.2 = kv.2 := by
  intro r hr kv hkv hk1
  obtain ⟨rv, hrv, rfl⟩ := List.mem_map.mp hr
  rcases mem_rowSet_cases rv.1 k rv.2 kv hkv with hin | heq
  · exact htf rv.1 (List.of_mem_zip hrv).1 kv hin hk1
  · exfalso
    apply hk
    rw [← hk1, heq]

theorem t_defaultCol (df : DFrame) (k : String) (v : Cell)
    (hk : ¬ ("timestamp" : String) = k)
    (htf : ∀ r ∈ df.rows, ∀ kv ∈ r, kv.1 = "timestamp" → parseCell kv.2 = kv.2) :
    ∀ r ∈ (df.defaultCol k v).rows, ∀ kv ∈ r, kv.1 = "timestamp" →
      parseCell kv.2 = kv.2 := by
  unfold DFrame.defaultCol
  by_cases hc : df.hasCol k
  · rw [if_pos hc]
    exact htf
  · rw [if_neg hc]
    exact t_setConst df k v hk htf

theorem t_stageDefaults (df : DFrame)
    (htf : ∀ r ∈ df.rows, ∀ kv ∈ r, kv.1 = "timestamp" → parseCell kv.2 = kv.2) :
    ∀ r ∈ (stageDefaults df).rows, ∀ kv ∈ r, kv.1 = "timestamp" →
      parseCell kv.2 = kv.2 := by
  unfold stageDefaults
  exact t_defaultCol _ _ _ (by decide) (t_defaultCol _ _ _ (by decide)
    (t_defaultCol _ _ _ (by decide) (t_defaultCol _ _ _ (by decide)
      (t_defaultCol _ _ _ (by decide) htf))))

theorem t_stageId (df : DFrame)
    (htf : ∀ r ∈ df.rows, ∀ kv ∈ r, kv.1 = "timestamp" → parseCell kv.2 = kv.2) :
    ∀ r ∈ (stageId df).rows, ∀ kv ∈ r, kv.1 = "timestamp" →
      parseCell kv.2 = kv.2 := by
  unfold stageId
  by_cases hc : df.hasCol "incident_id"
  · rw [if_pos hc]
    exact htf
  · rw [if_neg hc]
    exact t_setColVals df "incident_id" _ (by decide) htf

theorem t_stageSeverity (df : DFrame)
    (htf : ∀ r ∈ df.rows, ∀ kv ∈ r, kv.1 = "timestamp" → parseCell kv.2 = kv.2) :
    ∀ r ∈ (stageSeverity df).rows, ∀ kv ∈ r, kv.1 = "timestamp" →
      parseCell kv.2 = kv.2 := by
  intro r hr kv hkv hk1
  obtain ⟨r0, hr0, rfl⟩ := List.mem_map.mp hr
  rcases mem_rowMapVal_cases r0 _ _ kv hkv with ⟨kv0, _, hk0, rfl⟩ | ⟨hin, _⟩
  · exfalso
    have : kv0.1 = "timestamp" := hk1
    rw [hk0] at this
    exact absurd this (by decide)
  · exact htf r0 hr0 kv hin hk1

theorem sev_stageSeverity (df : DFrame) :
    ∀ r ∈ (stageSeverity df).rows, ∀ kv ∈ r, kv.1 = "severity" →
      sevCoerce kv.2 = kv.2 := by
  intro r hr kv hkv hk1
  obtain ⟨r0, hr0, rfl⟩ := List.mem_map.mp hr
  rcases mem_rowMapVal_cases r0 _ _ kv hkv with ⟨kv0, _, _, rfl⟩ | ⟨_, hne⟩
  · exact sevCoerce_idem kv0.2
  · exact absurd hk1 hne

/-! ## Second-pass identity of each stage -/

theorem synonymMap_eq_nil (df : DFrame)
    (hsev : df.hasCol "severity" = true) (hty : df.hasCol "type" = true)
    (hst : df.hasCol "status" = true) (has2 : df.hasCol "assigned_to" = true)
    (hass : df.hasCol "asset" = true) (hid : df.hasCol "incident_id" = true)
    (hq : df.hasCol "timestamp" = true ∨
      ∀ c, df.hasCol c = true → dateLikeCol c = false) :
    synonymMap df.cols = [] := by
  have hsev' : df.cols.any (· == "severity") = true := hsev
  have hty' : df.cols.any (· == "type") = true := hty
  have hst' : df.cols.any (· == "status") = true := hst
  have has2' : df.cols.any (· == "assigned_to") = true := has2
  have hass' : df.cols.any (· == "asset") = true := hass
  have hid' : df.cols.any (· == "incident_id") = true := hid
  by_cases hts : df.cols.any (· == "timestamp") = true
  · simp [synonymMap, hsev', hty', hst', has2', hass', hid', hts]
  · have hd : df.cols.any (· == "date") = false := by
      by_cases hdd : df.cols.any (· == "date") = true
      · rcases hq with hq | hq
        · exact absurd hq hts
        · exact absurd (hq "date" hdd) (by decide)
      · rw [Bool.not_eq_true] at hdd
        exact hdd
    simp [synonymMap, hsev', hty', hst', has2', hass', hid', hd]

theorem normalizeColumns_eq_self (df : DFrame) (hwf : df.Wf)
    (hcanon : ∀ c, df.hasCol c = true → canonName c = c)
    (hsev : df.hasCol "severity" = true) (hty : df.hasCol "type" = true)
    (hst : df.hasCol "status" = true) (has2 : df.hasCol "assigned_to" = true)
    (hass : df.hasCol "asset" = true) (hid : df.hasCol "incident_id" = true)
    (hq : df.hasCol "timestamp" = true ∨
      ∀ c, df.hasCol c = true → dateLikeCol c = false) :
    normalizeColumns df = df := by
  have h1 : df.renameAll canonName = df :=
    renameAll_id_of df canonName (fun c hc => hcanon c ((hasCol_iff_mem df c).mpr hc)) hwf
  show ((df.renameAll canonName).renameAll fun c =>
    ((synonymMap (df.renameAll canonName).cols).lookup c).getD c) = df
  rw [h1, synonymMap_eq_nil df hsev hty hst has2 hass hid hq]
  exact renameAll_id_of df _ (fun c _ => rfl) hwf

theorem stageCols_eq_self (df : DFrame) (hwf : df.Wf)
    (hcanon : ∀ c, df.hasCol c = true → canonName c = c)
    (hsev : df.hasCol "severity" = true) (hty : df.hasCol "type" = true)
    (hst : df.hasCol "status" = true) (has2 : df.hasCol "assigned_to" = true)
    (hass : df.hasCol "asset" = true) (hid : df.hasCol "incident_id" = true)
    (hq : df.hasCol "timestamp" = true ∨
      ∀ c, df.hasCol c = true → dateLikeCol c = false) :
    stageCols df = df := by
  unfold stageCols
  by_cases he : df.isEmpty = true
  · rw [if_pos he]
  · rw [if_neg he]
    exact normalizeColumns_eq_self df hwf hcanon hsev hty hst has2 hass hid hq

theorem stageTimestamp_eq_self (df : DFrame)
    (htf : ∀ r ∈ df.rows, ∀ kv ∈ r, kv.1 = "timestamp" → parseCell kv.2 = kv.2)
    (hq : df.hasCol "timestamp" = true ∨
      ∀ c, df.hasCol c = true → dateLikeCol c = false) :
    stageTimestamp df = df := by
  unfold stageTimestamp
  by_cases ht : df.hasCol "timestamp"
  · rw [if_pos ht]
    exact mapCol_eq_self df _ parseCell htf
  · rw [if_neg ht]
    have hfind : df.cols.find? dateLikeCol = none := by
      rcases hq with hq | hq
      · exact absurd hq ht
      · rw [List.find?_eq_none]
        intro x hx
        simp [hq x ((hasCol_iff_mem df x).mpr hx)]
    rw [hfind]

theorem defaultCol_eq_self (df : DFrame) (k : String) (v : Cell)
    (h : df.hasCol k = true) : df.defaultCol k v = df := by
  unfold DFrame.defaultCol
  rw [if_pos h]

theorem stageDefaults_eq_self (df : DFrame)
    (hsev : df.hasCol "severity" = true) (hty : df.hasCol "type" = true)
    (hst : df.hasCol "status" = true) (has2 : df.hasCol "assigned_to" = true)
    (hass : df.hasCol "asset" = true) : stageDefaults df = df := by
  unfold stageDefaults
  rw [defaultCol_eq_self df _ _ hsev, defaultCol_eq_self df _ _ hty,
    defaultCol_eq_self df _ _ hst, defaultCol_eq_self df _ _ has2,
    defaultCol_eq_self df _ _ hass]

theorem stageId_eq_self (df : DFrame) (hid : df.hasCol "incident_id" = true) :
    stageId df = df := by
  unfold stageId
  rw [if_pos hid]

theorem stageSeverity_eq_self (df : DFrame)
    (hs : ∀ r ∈ df.rows, ∀ kv ∈ r, kv.1 = "severity" → sevCoerce kv.2 = kv.2) :
    stageSeverity df = df :=
  mapCol_eq_self df "severity" sevCoerce hs

/-! ## C6 — normalization is idempotent -/

/-- C6: normalizing an already-normalized table changes nothing — field names
are already canonical, every guaranteed column already exists, timestamps are
already parsed and severities already lower-cased and trimmed, so for every
input record set `x`, `normalize (normalize x) = normalize x`. -/
theorem c6_normalize_idempotent (recs : List Row) :
    normalizeTable (normalizeRecords recs) = normalizeRecords recs := by
  show normalizeTable (stageSeverity (stageId (stageDefaults (stageTimestamp
    (stageCols (dfFromRecords recs)))))) = stageSeverity (stageId (stageDefaults
    (stageTimestamp (stageCols (dfFromRecords recs)))))
  have hwf0 : (dfFromRecords recs).Wf := wf_dfFromRecords recs
  have hwf1 := wf_stageCols _ hwf0
  have hdef := hasCols_stageDefaults (stageTimestamp (stageCols (dfFromRecords recs)))
  set y4 := stageId (stageDefaults (stageTimestamp (stageCols (dfFromRecords recs))))
    with hy4
  set Z := stageSeverity y4 with hZ
  have hwf4 : y4.Wf := wf_stageId _ (wf_stageDefaults _ (wf_stageTimestamp _ hwf1))
  have hwfZ : Z.Wf := wf_mapCol _ "severity" sevCoerce hwf4
  have hZcol : ∀ c, Z.hasCol c = y4.hasCol c := by
    intro c
    rw [hZ, hasCol_fun_stageSeverity]
  have hZsev : Z.hasCol "severity" = true := by
    rw [hZcol]
    exact hasCol_stageId_mono _ _ hdef.1
  have hZty : Z.hasCol "type" = true := by
    rw [hZcol]
    exact hasCol_stageId_mono _ _ hdef.2.1
  have hZst : Z.hasCol "status" = true := by
    rw [hZcol]
    exact hasCol_stageId_mono _ _ hdef.2.2.1
  have hZas : Z.hasCol "assigned_to" = true := by
    rw [hZcol]
    exact hasCol_stageId_mono _ _ hdef.2.2.2.1
  have hZast : Z.hasCol "asset" = true := by
    rw [hZcol]
    exact hasCol_stageId_mono _ _ hdef.2.2.2.2
  have hZid : Z.hasCol "incident_id" = true := by
    rw [hZcol]
    exact hasCol_stageId_self _
  have hcanon4 := canonCols_stageId _ (canonCols_stageDefaults _
    (canonCols_stageTimestamp _ (canonCols_stageCols recs)))
  have hcanonZ : ∀ c, Z.hasCol c = true → canonName c = c := by
    intro c hc
    rw [hZcol] at hc
    exact hcanon4 c hc
  have hq4 := q_stageId _ (q_stageDefaults _
    (q_stageTimestamp (stageCols (dfFromRecords recs))))
  have hqZ : Z.hasCol "timestamp" = true ∨
      ∀ c, Z.hasCol c = true → dateLikeCol c = false := by
    rcases hq4 with h | h
    · left
      rw [hZcol]
      exact h
    · right
      intro c hc
      rw [hZcol] at hc
      exact h c hc
  have htZ := t_stageSeverity _ (t_stageId _ (t_stageDefaults _
    (t_stageTimestamp _ hwf1)))
  have hsevZ := sev_stageSeverity y4
  show stageSeverity (stageId (stageDefaults (stageTimestamp (stageCols Z)))) = Z
  rw [stageCols_eq_self Z hwfZ hcanonZ hZsev hZty hZst hZas hZast hZid hqZ,
    stageTimestamp_eq_self Z htZ hqZ,
    stageDefaults_eq_self Z hZsev hZty hZst hZas hZast,
    stageId_eq_self Z hZid,
    stageSeverity_eq_self Z hsevZ]
